import Mathlib

/-!
Verification development for the a11y-assist Profile Transform + Guard engine
(`src/a11y_assist/`).  The Python string operations are embedded as executable
functions on `List Char` (wrapped in `String` at module boundaries).  Regex
substitutions are embedded as explicit left-to-right scanners; for the specific
patterns used by the source, greedy matching with backtracking collapses to the
deterministic scans implemented here (the relevant character classes are
pairwise disjoint, so backtracking can never produce a different match).
Scanners that restart after a variable-length match take a fuel argument; the
wrappers pass the input length, which always suffices because every step
consumes at least one character of the original list.  Character classes model
Python's `str` semantics on ASCII text (`\w`/`\b`, `.lower()`, `[a-zA-Z0-9]`);
`\s` includes the Unicode whitespace set Python uses.
-/

set_option maxHeartbeats 1600000
set_option maxRecDepth 4096

namespace A11y

/-- Python `\s` (and `str.strip` / `str.isspace`) whitespace class. -/
def pySpace (c : Char) : Bool :=
  let n := c.toNat
  n == 32 || n == 9 || n == 10 || n == 13 || n == 11 || n == 12 ||
  (decide (28 ≤ n) && decide (n ≤ 31)) || n == 0x85 || n == 0xA0 || n == 0x1680 ||
  (decide (0x2000 ≤ n) && decide (n ≤ 0x200A)) || n == 0x2028 || n == 0x2029 ||
  n == 0x202F || n == 0x205F || n == 0x3000

/-- Python `\w` word characters (ASCII fragment: letters, digits, underscore). -/
def isWordChar (c : Char) : Bool :=
  c.isAlphanum || c == '_'

/-- The four characters of `guard.py`'s `PARENTHETICAL_PATTERN = [\(\)\[\]]`. -/
def isBracketChar (c : Char) : Bool :=
  c == '(' || c == ')' || c == '[' || c == ']'

/-- Opening bracket class `[\(\[]` of the parenthetical span pattern. -/
def isOpenBr (c : Char) : Bool :=
  c == '(' || c == '['

/-- Closing bracket class `[\)\]]` of the parenthetical span pattern. -/
def isCloseBr (c : Char) : Bool :=
  c == ')' || c == ']'

/-- Python `str.strip()`: drop whitespace from both ends. -/
def pyStripL (l : List Char) : List Char :=
  ((l.dropWhile pySpace).reverse.dropWhile pySpace).reverse

/-- String wrapper for `pyStripL`. -/
def pyStripS (s : String) : String :=
  ⟨pyStripL s.data⟩

/-- Drop a literal pattern from the front (case-sensitive); `none` if it is not
a prefix. -/
def dropLitExact : List Char → List Char → Option (List Char)
  | [], l => some l
  | _ :: _, [] => none
  | p :: ps, c :: cs => if p == c then dropLitExact ps cs else none

/-- Drop a literal pattern from the front, ASCII case-insensitively (Python
`re.IGNORECASE` on ASCII letters). -/
def dropLitCI : List Char → List Char → Option (List Char)
  | [], l => some l
  | _ :: _, [] => none
  | p :: ps, c :: cs => if p.toLower == c.toLower then dropLitCI ps cs else none

/-- Python `str.split(pat)[0]`: the text before the first occurrence of `pat`
(the whole string when `pat` does not occur). -/
def takeUntilLit (pat : List Char) : List Char → List Char
  | [] => []
  | c :: rest =>
    match dropLitExact pat (c :: rest) with
    | some _ => []
    | none => c :: takeUntilLit pat rest

/-- Python `str.replace(pat, repl)`: replace every non-overlapping occurrence,
scanning left to right.  Fuel = input length suffices: each step consumes at
least one character (`pat` is never empty at call sites). -/
def strReplaceGo : Nat → List Char → List Char → List Char → List Char
  | 0, _, _, l => l
  | fuel + 1, pat, repl, l =>
    match l with
    | [] => []
    | c :: rest =>
      match dropLitExact pat (c :: rest) with
      | some rem => repl ++ strReplaceGo fuel pat repl rem
      | none => c :: strReplaceGo fuel pat repl rest

/-- Wrapper for `strReplaceGo` passing sufficient fuel. -/
def strReplaceAll (pat repl l : List Char) : List Char :=
  strReplaceGo l.length pat repl l

/-- Python `re.sub(r"\s+", " ", s)`: replace every maximal whitespace run with
a single space. -/
def collapseWSGo : Nat → List Char → List Char
  | 0, l => l
  | fuel + 1, l =>
    match l with
    | [] => []
    | c :: rest =>
      if pySpace c then ' ' :: collapseWSGo fuel (rest.dropWhile pySpace)
      else c :: collapseWSGo fuel rest

/-- Wrapper for `collapseWSGo` passing sufficient fuel. -/
def collapseWS (l : List Char) : List Char :=
  collapseWSGo l.length l

/-- Tail of a parenthetical-span match: a closing bracket followed by `\s*`. -/
def closeParenTail : List Char → Option (List Char)
  | [] => none
  | d :: rest2 => if isCloseBr d then some (rest2.dropWhile pySpace) else none

/-- Match of the pattern `\s*[\(\[][^\)\]]*[\)\]]\s*` at the head of `l`
(the `PARENTHETICAL_RE` of the profiles); returns the remainder after the
match.  Greedy `\s*`/`[^\)\]]*` need no backtracking because the following
element's class is disjoint from the repeated class. -/
def matchParenAt (l : List Char) : Option (List Char) :=
  match l.dropWhile pySpace with
  | [] => none
  | c :: rest =>
    if isOpenBr c then closeParenTail (rest.dropWhile (fun d => !(isCloseBr d)))
    else none

/-- Python `PARENTHETICAL_RE.sub(" ", s)`: replace each leftmost match of the
parenthetical-span pattern with a single space. -/
def subParenGo : Nat → List Char → List Char
  | 0, l => l
  | fuel + 1, l =>
    match l with
    | [] => []
    | c :: rest =>
      match matchParenAt (c :: rest) with
      | some rem => ' ' :: subParenGo fuel rem
      | none => c :: subParenGo fuel rest

/-- Wrapper for `subParenGo` passing sufficient fuel (every match consumes at
least its two bracket characters). -/
def subParen (l : List Char) : List Char :=
  subParenGo l.length l

/-- Trailing `\b` after a word-character literal: the following character
must be absent or not a word character. -/
def tailBoundaryOk : List Char → Bool
  | [] => true
  | d :: _ => !isWordChar d

/-- Match a literal word `w` at the head of `l` under Python `\bw\b`
semantics: `prevWord` says whether the character before `l` was a word
character (no boundary if so); after the literal, the next character must not
be a word character. -/
def matchWordAt (prevWord : Bool) (w l : List Char) : Option (List Char) :=
  if prevWord then none
  else
    match dropLitExact w l with
    | some rem => if tailBoundaryOk rem then some rem else none
    | none => none

/-- Python `pattern.sub(repl, s)` for a `\bw\b` literal-word pattern: replace
every occurrence (used by `screen_reader._expand_abbreviations`).  After a
replacement the scan continues in the original string, where the preceding
character is the last letter of `w` (a word character). -/
def wordSubAllGo : Nat → Bool → List Char → List Char → List Char → List Char
  | 0, _, _, _, l => l
  | fuel + 1, prevWord, w, repl, l =>
    match l with
    | [] => []
    | c :: rest =>
      match matchWordAt prevWord w (c :: rest) with
      | some rem => repl ++ wordSubAllGo fuel true w repl rem
      | none => c :: wordSubAllGo fuel (isWordChar c) w repl rest

/-- Wrapper for `wordSubAllGo` (scan starts at a string boundary). -/
def wordSubAll (w repl l : List Char) : List Char :=
  wordSubAllGo l.length false w repl l

/-- Python `re.sub(pattern, repl, s, count=1)` for a `\bw\b` literal-word
pattern: replace only the first occurrence, keeping the remainder verbatim
(used by `dyslexia._expand_abbreviations`). -/
def wordSubOnceAux (prevWord : Bool) (w repl : List Char) : List Char → List Char
  | [] => []
  | c :: rest =>
    match matchWordAt prevWord w (c :: rest) with
    | some rem => repl ++ rem
    | none => c :: wordSubOnceAux (isWordChar c) w repl rest

/-- Wrapper for `wordSubOnceAux` (scan starts at a string boundary). -/
def wordSubOnce (w repl l : List Char) : List Char :=
  wordSubOnceAux false w repl l

/-- Keywords of the visual-navigation pattern
`\b(see\s+)?(above|below|left|right|arrow)\b` (IGNORECASE). -/
def visualKw : List (List Char) :=
  ["above".data, "below".data, "left".data, "right".data, "arrow".data]

/-- Try the visual-navigation keywords in alternation order, case-insensitively. -/
def dropKwCI (l : List Char) : List (List Char) → Option (List Char)
  | [] => none
  | k :: ks =>
    match dropLitCI k l with
    | some rem => some rem
    | none => dropKwCI l ks

/-- Keyword part of the visual-navigation pattern with its trailing `\b`. -/
def visualCore (l : List Char) : Option (List Char) :=
  match dropKwCI l visualKw with
  | some rem => if tailBoundaryOk rem then some rem else none
  | none => none

/-- Whether the `\s+` of the optional `see\s+` group can start here. -/
def seeSpaceOk : List Char → Bool
  | [] => false
  | r :: _ => pySpace r

/-- Match of `\b(see\s+)?(above|below|left|right|arrow)\b` at the head of `l`.
The optional `see\s+` group is tried greedily first; if the keyword does not
follow it, the group is dropped (Python backtracking). -/
def matchVisualAt (prevWord : Bool) (l : List Char) : Option (List Char) :=
  if prevWord then none
  else
    match dropLitCI "see".data l with
    | some rest =>
      if seeSpaceOk rest then
        match visualCore (rest.dropWhile pySpace) with
        | some rem => some rem
        | none => visualCore l
      else visualCore l
    | none => visualCore l

/-- Python `VISUAL_NAV_PHRASES.sub("", s)`: delete every match of the
visual-navigation pattern. -/
def visualSubGo : Nat → Bool → List Char → List Char
  | 0, _, l => l
  | fuel + 1, prevWord, l =>
    match l with
    | [] => []
    | c :: rest =>
      match matchVisualAt prevWord (c :: rest) with
      | some rem => visualSubGo fuel true rem
      | none => c :: visualSubGo fuel (isWordChar c) rest

/-- Wrapper for `visualSubGo` (scan starts at a string boundary). -/
def visualSub (l : List Char) : List Char :=
  visualSubGo l.length false l

/-- Python `VISUAL_NAV_PATTERNS.search(s) is not None` (used by the Guard). -/
def visualSearchGo : Bool → List Char → Bool
  | _, [] => false
  | prevWord, c :: rest =>
    (matchVisualAt prevWord (c :: rest)).isSome || visualSearchGo (isWordChar c) rest

/-- Wrapper for `visualSearchGo` (scan starts at a string boundary). -/
def visualSearch (l : List Char) : Bool :=
  visualSearchGo false l

/-- Python `re.findall(r"[a-zA-Z0-9]+", s)`: the maximal ASCII-alphanumeric
runs of `s`, in order. -/
def alnumRunsGo : Nat → List Char → List (List Char)
  | 0, _ => []
  | fuel + 1, l =>
    match l with
    | [] => []
    | c :: rest =>
      if c.isAlphanum then
        (c :: rest.takeWhile Char.isAlphanum) ::
          alnumRunsGo fuel (rest.dropWhile Char.isAlphanum)
      else alnumRunsGo fuel rest

/-- Wrapper for `alnumRunsGo` passing sufficient fuel. -/
def alnumRuns (l : List Char) : List (List Char) :=
  alnumRunsGo l.length l

/-!
Data model (`src/a11y_assist/render.py`): `Confidence`, `Evidence`,
`AssistResult`.  `Confidence` is the `Literal["High","Medium","Low"]` type;
transforms and the Guard only ever construct or compare these three values.
-/

/-- Confidence level of an `AssistResult` (`render.py`, `Confidence`). -/
inductive Confidence where
  | High
  | Medium
  | Low
deriving DecidableEq

/-- Render a `Confidence` the way the Python string literals spell it. -/
def Confidence.toStr : Confidence → String
  | .High => "High"
  | .Medium => "Medium"
  | .Low => "Low"

/-- Source anchor for audit traceability (`render.py`, `Evidence`). -/
structure Evidence where
  field : String
  source : String
  note : Option String := none
deriving DecidableEq

/-- Structured assist result with optional audit metadata
(`render.py`, `AssistResult`).  The dataclass defaults for the two audit
fields are empty tuples. -/
structure AssistResult where
  anchored_id : Option String
  confidence : Confidence
  safest_next_step : String
  plan : List String
  next_safe_commands : List String
  notes : List String
  methods_applied : List String := []
  evidence : List Evidence := []
deriving DecidableEq

/-!
Cognitive-load profile transform (`src/a11y_assist/profiles/cognitive_load.py`).
-/

/-- Alternatives of `cognitive_load.BOILERPLATE_PREFIXES`
`^(re-?run:\s*|run:\s*|try:\s*|\$\s*|>\s*)` in Python alternation order
(the optional `-` of `re-?run` is tried greedily first). -/
def cogBoilerAlts : List (List Char) :=
  ["re-run:".data, "rerun:".data, "run:".data, "try:".data, "$".data, ">".data]

/-- Apply an anchored boilerplate-prefix pattern once: try the literal
alternatives in order (case-insensitively); on the first that is a prefix,
drop it together with the following `\s*`. -/
def stripLeadBoiler (alts : List (List Char)) (l : List Char) : List Char :=
  match alts with
  | [] => l
  | p :: ps =>
    match dropLitCI p l with
    | some rest => rest.dropWhile pySpace
    | none => stripLeadBoiler ps l

/-- Cognitive-load `_strip_boilerplate`: strip the anchored prefix pattern and
then `str.strip()`. -/
def cog_strip_boilerplate (s : String) : String :=
  ⟨pyStripL (stripLeadBoiler cogBoilerAlts s.data)⟩

/-- Cognitive-load `_remove_parentheticals`: substitute parenthetical spans
with a space, strip; if the result is empty revert to the input, otherwise
collapse whitespace runs. -/
def cog_remove_parentheticals (s : String) : String :=
  let result := pyStripL (subParen s.data)
  if result.isEmpty then s else ⟨collapseWS result⟩

/-- One rewrite of `cognitive_load.IMPERATIVE_REWRITES`: an anchored
case-insensitive literal followed by `\s+`, replaced once at the start. -/
def imperativeSub1 (lit repl : List Char) (s : List Char) : List Char :=
  match dropLitCI lit s with
  | some rest =>
    match rest with
    | r :: rs => if pySpace r then repl ++ rs.dropWhile pySpace else s
    | [] => s
  | none => s

/-- Cognitive-load `_to_imperative`: the four anchored rewrites in order. -/
def cog_to_imperative (s : String) : String :=
  let s1 := imperativeSub1 "you should".data "Do ".data s.data
  let s2 := imperativeSub1 "please".data "Do ".data s1
  let s3 := imperativeSub1 "consider".data "Try ".data s2
  let s4 := imperativeSub1 "it may help to".data "Try ".data s3
  ⟨s4⟩

/-- Cognitive-load `_reduce_conjunctions`: the three literal replacements of
`CONJUNCTION_REPLACEMENTS` in order, then keep the first `". "`-sentence
(stripped), appending a period when the kept part is non-empty and does not
end with one. -/
def cog_reduce_conjunctions (s : String) : String :=
  let s1 := strReplaceAll " and then ".data ". Then ".data s.data
  let s2 := strReplaceAll " and ".data ". ".data s1
  let s3 := strReplaceAll " but ".data ". ".data s2
  let first := pyStripL (takeUntilLit ". ".data s3)
  if first.isEmpty then ⟨first⟩
  else if first.getLast? == some '.' then ⟨first⟩
  else ⟨first ++ ['.']⟩

/-- Cognitive-load `_cap_length` with its 90-character default. -/
def cog_cap_length (maxLen : Nat) (s : String) : String :=
  if s.data.length ≤ maxLen then s else ⟨s.data.take (maxLen - 1) ++ ['…']⟩

/-- Cognitive-load `normalize_step`. -/
def cog_normalize_step (step : String) : String :=
  let s := pyStripS step
  if s.data.isEmpty then s
  else
    cog_cap_length 90 (cog_reduce_conjunctions (cog_to_imperative
      (cog_remove_parentheticals (cog_strip_boilerplate s))))

/-- Cognitive-load `normalize_safest_step`. -/
def cog_normalize_safest_step (s : String) : String :=
  if s.data.isEmpty then "Follow the Fix steps."
  else
    let s1 := cog_remove_parentheticals s
    let s2 :=
      if s1.data.any (fun c => c == ';') then
        ⟨pyStripL (s1.data.takeWhile (fun c => !(c == ';')))⟩
      else if s1.data.any (fun c => c == ',') then
        ⟨pyStripL (s1.data.takeWhile (fun c => !(c == ',')))⟩
      else s1
    let s3 := cog_reduce_conjunctions s2
    let s4 := pyStripL s3.data
    let s5 := if s4.isEmpty then s4
              else if s4.getLast? == some '.' then s4
              else s4 ++ ['.']
    cog_cap_length 90 ⟨s5⟩

/-- Cognitive-load `reduce_plan` with its `max_steps = 3` default. -/
def cog_reduce_plan (plan : List String) : List String :=
  if plan.isEmpty then ["Follow the tool's Fix steps in order."]
  else
    let normalized :=
      ((plan.filter (fun s => !(pyStripL s.data).isEmpty)).map cog_normalize_step).filter
        (fun s => !s.data.isEmpty)
    if normalized.isEmpty then ["Follow the tool's Fix steps in order."]
    else normalized.take 3

/-- Cognitive-load `select_safe_command`: `None` on Low confidence, otherwise
the first command verbatim. -/
def cog_select_safe_command (commands : List String) (confidence : Confidence) :
    Option String :=
  if confidence = .Low then none
  else
    match commands with
    | [] => none
    | c :: _ => some c

/-- Cognitive-load `reduce_notes` with its `max_notes = 2` default. -/
def cog_reduce_notes (notes : List String) : List String :=
  (notes.take 2).filterMap (fun note =>
    let n := cog_cap_length 100 (cog_remove_parentheticals note)
    if n.data.isEmpty then none else some n)

/-- Cognitive-load `apply_cognitive_load`.  The Python truthiness test
`[safe_cmd] if safe_cmd else []` drops an empty-string command. -/
def apply_cognitive_load (result : AssistResult) : AssistResult :=
  let reduced_plan := cog_reduce_plan result.plan
  let normalized_safest := cog_normalize_safest_step result.safest_next_step
  let safe_commands :=
    match cog_select_safe_command result.next_safe_commands result.confidence with
    | some c => if c.data.isEmpty then [] else [c]
    | none => []
  let reduced_notes := cog_reduce_notes result.notes
  { anchored_id := result.anchored_id
    confidence := result.confidence
    safest_next_step := normalized_safest
    plan := reduced_plan
    next_safe_commands := safe_commands
    notes := reduced_notes }

/-!
Screen-reader profile transform (`src/a11y_assist/profiles/screen_reader.py`).
-/

/-- Alternatives of `screen_reader.BOILERPLATE_PREFIXES`
`^(re-?run:\s*|run:\s*|try:\s*|next:\s*|\$\s*|>\s*)`. -/
def srBoilerAlts : List (List Char) :=
  ["re-run:".data, "rerun:".data, "run:".data, "try:".data, "next:".data,
   "$".data, ">".data]

/-- Screen-reader `_strip_boilerplate`. -/
def sr_strip_boilerplate (s : String) : String :=
  ⟨pyStripL (stripLeadBoiler srBoilerAlts s.data)⟩

/-- Screen-reader `_remove_parentheticals` (identical body to the
cognitive-load one, including the empty-revert). -/
def sr_remove_parentheticals (s : String) : String :=
  let result := pyStripL (subParen s.data)
  if result.isEmpty then s else ⟨collapseWS result⟩

/-- Screen-reader `_remove_visual_references`: delete visual-navigation
matches, then collapse whitespace and strip. -/
def sr_remove_visual_references (s : String) : String :=
  ⟨pyStripL (collapseWS (visualSub s.data))⟩

/-- The `screen_reader.ABBREVIATIONS` table, in list order. -/
def srAbbrev : List (List Char × List Char) :=
  [("CLI".data, "command line".data), ("ID".data, "I D".data),
   ("URL".data, "U R L".data), ("JSON".data, "J S O N".data),
   ("env".data, "environment".data), ("SFTP".data, "S F T P".data),
   ("SSH".data, "S S H".data), ("API".data, "A P I".data)]

/-- Screen-reader `_expand_abbreviations`: each `\bw\b` pattern substituted
over the whole string (every occurrence), patterns applied in table order. -/
def sr_expand_abbreviations (s : String) : String :=
  ⟨srAbbrev.foldl (fun acc p => wordSubAll p.1 p.2 acc) s.data⟩

/-- Screen-reader `_replace_symbols`: the three literal replacements of
`SYMBOL_REPLACEMENTS` in order, then collapse whitespace and strip. -/
def sr_replace_symbols (s : String) : String :=
  let s1 := strReplaceAll "->".data " to ".data s.data
  let s2 := strReplaceAll "=>".data " to ".data s1
  let s3 := strReplaceAll " & ".data " and ".data s2
  ⟨pyStripL (collapseWS s3)⟩

/-- Screen-reader `_one_sentence`: keep the text before the first `;`
(stripped) when one occurs, then the first `". "`-sentence, stripped. -/
def sr_one_sentence (s : String) : String :=
  let s1 :=
    if s.data.any (fun c => c == ';') then
      ⟨pyStripL (s.data.takeWhile (fun c => !(c == ';')))⟩
    else s
  ⟨pyStripL (takeUntilLit ". ".data s1.data)⟩

/-- Screen-reader `_ensure_period`. -/
def sr_ensure_period (s : String) : String :=
  let t := pyStripL s.data
  if t.isEmpty then ⟨t⟩
  else if t.getLast? == some '.' then ⟨t⟩
  else ⟨t ++ ['.']⟩

/-- Screen-reader `_cap_length` (default 110). -/
def sr_cap_length (maxLen : Nat) (s : String) : String :=
  if s.data.length ≤ maxLen then s else ⟨s.data.take (maxLen - 1) ++ ['…']⟩

/-- Screen-reader `normalize_step`. -/
def sr_normalize_step (step : String) : String :=
  let s := pyStripS step
  if s.data.isEmpty then s
  else
    sr_cap_length 110 (sr_ensure_period (sr_one_sentence (sr_replace_symbols
      (sr_expand_abbreviations (sr_remove_visual_references
        (sr_remove_parentheticals (sr_strip_boilerplate s)))))))

/-- Screen-reader `normalize_safest_step`. -/
def sr_normalize_safest_step (s : String) : String :=
  if s.data.isEmpty then "Follow the steps in order."
  else
    sr_cap_length 110 (sr_ensure_period (sr_one_sentence (sr_replace_symbols
      (sr_expand_abbreviations (sr_remove_visual_references
        (sr_remove_parentheticals s))))))

/-- Screen-reader `reduce_plan`: 5 steps for High/Medium, 3 for Low. -/
def sr_reduce_plan (plan : List String) (confidence : Confidence) : List String :=
  if plan.isEmpty then ["Follow the tool's instructions."]
  else
    let maxSteps := if confidence = .Low then 3 else 5
    let normalized :=
      ((plan.filter (fun s => !(pyStripL s.data).isEmpty)).map sr_normalize_step).filter
        (fun s => !s.data.isEmpty)
    if normalized.isEmpty then ["Follow the tool's instructions."]
    else normalized.take maxSteps

/-- Screen-reader `select_safe_command`: `None` on Low confidence, otherwise
the first command with a leading `"$ "` or `"$"` stripped. -/
def sr_select_safe_command (commands : List String) (confidence : Confidence) :
    Option String :=
  if confidence = .Low then none
  else
    match commands with
    | [] => none
    | c :: _ =>
      match dropLitExact "$ ".data c.data with
      | some rest => some ⟨rest⟩
      | none =>
        match dropLitExact "$".data c.data with
        | some rest => some ⟨rest⟩
        | none => some c

/-- Screen-reader `reduce_notes` with its `max_notes = 3` default. -/
def sr_reduce_notes (notes : List String) : List String :=
  (notes.take 3).filterMap (fun note =>
    let n := sr_cap_length 120 (sr_ensure_period (sr_one_sentence
      (sr_replace_symbols (sr_expand_abbreviations
        (sr_remove_visual_references (sr_remove_parentheticals note))))))
    if !n.data.isEmpty && n ≠ "." then some n else none)

/-- Screen-reader `apply_screen_reader`. -/
def apply_screen_reader (result : AssistResult) : AssistResult :=
  let reduced_plan := sr_reduce_plan result.plan result.confidence
  let normalized_safest := sr_normalize_safest_step result.safest_next_step
  let safe_commands :=
    match sr_select_safe_command result.next_safe_commands result.confidence with
    | some c => if c.data.isEmpty then [] else [c]
    | none => []
  let reduced_notes := sr_reduce_notes result.notes
  { anchored_id := result.anchored_id
    confidence := result.confidence
    safest_next_step := normalized_safest
    plan := reduced_plan
    next_safe_commands := safe_commands
    notes := reduced_notes }

/-!
Dyslexia profile transform (`src/a11y_assist/profiles/dyslexia.py`).
-/

/-- The `dyslexia.ABBREVIATIONS` dict, in insertion (iteration) order. -/
def dysAbbrev : List (List Char × List Char) :=
  [("CLI".data, "command line".data), ("ID".data, "I D".data),
   ("JSON".data, "J S O N".data), ("API".data, "A P I".data),
   ("SFTP".data, "S F T P".data), ("SSH".data, "S S H".data),
   ("URL".data, "U R L".data), ("HTTP".data, "H T T P".data),
   ("HTTPS".data, "H T T P S".data)]

/-- Dyslexia `_expand_abbreviations`: each pattern substituted with
`count=1` (first occurrence only), patterns applied in table order. -/
def dys_expand_abbreviations (s : String) : String :=
  ⟨dysAbbrev.foldl (fun acc p => wordSubOnce p.1 p.2 acc) s.data⟩

/-- Dyslexia `_remove_parentheticals`: substitute spans with a space and
strip; there is no empty-revert in this module. -/
def dys_remove_parentheticals (s : String) : String :=
  ⟨pyStripL (subParen s.data)⟩

/-- Dyslexia `_remove_visual_refs`: delete visual-navigation matches and
strip; no whitespace collapse in this module. -/
def dys_remove_visual_refs (s : String) : String :=
  ⟨pyStripL (visualSub s.data)⟩

/-- Character class of `dyslexia.SYMBOLIC_EMPHASIS`
(`[*_→←↑↓]` or the emoji block `U+1F300`–`U+1F9FF`). -/
def isSymEmph (c : Char) : Bool :=
  c == '*' || c == '_' || c == '→' || c == '←' || c == '↑' || c == '↓' ||
  (decide (0x1F300 ≤ c.toNat) && decide (c.toNat ≤ 0x1F9FF))

/-- Dyslexia `_remove_symbolic_emphasis`: every match of the single-character
pattern is deleted, then strip. -/
def dys_remove_symbolic_emphasis (s : String) : String :=
  ⟨pyStripL (s.data.filter (fun c => !isSymEmph c))⟩

/-- Truncation step of dyslexia `_normalize_step`: over 110 characters, keep
107 and append `"..."`. -/
def dysTruncate (r5 : List Char) : String :=
  if r5.length > 110 then ⟨r5.take 107 ++ "...".data⟩ else ⟨r5⟩

/-- Dyslexia `_normalize_step`. -/
def dys_normalize_step (step : String) : String :=
  dysTruncate (pyStripL (collapseWS (dys_expand_abbreviations
    (dys_remove_symbolic_emphasis (dys_remove_visual_refs
      (dys_remove_parentheticals step)))).data))

/-- Dyslexia `_normalize_safest_step`. -/
def dys_normalize_safest_step (s : String) : String :=
  ⟨pyStripL (collapseWS (dys_expand_abbreviations
    (dys_remove_symbolic_emphasis (dys_remove_visual_refs
      (dys_remove_parentheticals s)))).data)⟩

/-- Per-step body of the `apply_dyslexia` plan loop: keep the normalized step
when it is non-empty. -/
def dysStepMapper (step : String) : Option String :=
  if (dys_normalize_step step).data.isEmpty then none
  else some (dys_normalize_step step)

/-- Normalized text of one note in the `apply_dyslexia` notes loop. -/
def dysNoteText (note : String) : String :=
  ⟨pyStripL (collapseWS (dys_expand_abbreviations
    (dys_remove_symbolic_emphasis (dys_remove_parentheticals note))).data)⟩

/-- Per-note body of the `apply_dyslexia` notes loop. -/
def dysNoteMapper (note : String) : Option String :=
  if (dysNoteText note).data.isEmpty then none else some (dysNoteText note)

/-- Dyslexia `apply_dyslexia`: commands are passed through (`[:3]`) with no
confidence check. -/
def apply_dyslexia (result : AssistResult) : AssistResult :=
  let safest := dys_normalize_safest_step result.safest_next_step
  let plan := (result.plan.take 5).filterMap dysStepMapper
  let notes := (result.notes.take 2).filterMap dysNoteMapper
  let commands := result.next_safe_commands.take 3
  { anchored_id := result.anchored_id
    confidence := result.confidence
    safest_next_step := safest
    plan := plan
    next_safe_commands := commands
    notes := notes }

/-!
Plain-language profile transform (`src/a11y_assist/profiles/plain_language.py`).
-/

/-- Plain-language `_remove_parentheticals`: substitute spans with a space and
strip; like the dyslexia module it has no empty-revert. -/
def pl_remove_parentheticals (s : String) : String :=
  ⟨pyStripL (subParen s.data)⟩

/-- Word part of the `CONJUNCTIONS` split pattern: one of `and`/`but`/`or`
(case-sensitive) followed by at least one whitespace character. -/
def conjWordAt (l : List Char) : Bool :=
  match dropLitExact "and".data l <|> dropLitExact "but".data l <|>
        dropLitExact "or".data l with
  | some rem =>
    match rem with
    | r :: _ => pySpace r
    | [] => false
  | none => false

/-- Whether a match of `plain_language.CONJUNCTIONS`
`\s*(?:,\s*and\s+|,\s*but\s+|,\s*or\s+|\s+and\s+|\s+but\s+|\s+or\s+)` starts
at the head of `l`: either whitespace then a comma then optional whitespace
then the word, or at least one whitespace character then the word. -/
def conjMatchAt (l : List Char) : Bool :=
  let l1 := l.dropWhile pySpace
  match l1 with
  | ',' :: r2 => conjWordAt (r2.dropWhile pySpace)
  | _ =>
    match l with
    | c :: _ => pySpace c && conjWordAt l1
    | [] => false

/-- Python `CONJUNCTIONS.split(s, maxsplit=1)[0]`: the text before the first
position where the conjunction pattern matches. -/
def conjSplitAux : List Char → List Char
  | [] => []
  | c :: rest => if conjMatchAt (c :: rest) then [] else c :: conjSplitAux rest

/-- Keywords of `plain_language.SUBORDINATE`, in alternation order. -/
def subordKw : List (List Char) :=
  ["which".data, "that".data, "who".data, "whom".data, "whose".data,
   "when".data, "where".data, "while".data, "although".data, "because".data,
   "if".data, "unless".data, "until".data, "after".data, "before".data,
   "since".data]

/-- Keyword-and-tail part of the `SUBORDINATE` pattern
`(?:which|...)\s+.*$` at the head of `l` (IGNORECASE).  Alternatives are
tried in order with full backtracking.  `.` does not match a newline and `$`
matches at the end or before a final newline, so after the mandatory
whitespace the rest of the string may contain no newline except a final one;
the returned value is the text after the keyword and its following
whitespace. -/
def subordCoreRem (l : List Char) : List (List Char) → Option (List Char)
  | [] => none
  | k :: ks =>
    match dropLitCI k l with
    | some rem =>
      (match rem with
       | r :: _ =>
         if pySpace r then
           let u := rem.dropWhile pySpace
           if (u.dropLast).all (fun c => !(c == '\n')) then some u
           else subordCoreRem l ks
         else subordCoreRem l ks
       | [] => subordCoreRem l ks)
    | none => subordCoreRem l ks

/-- Whether a `SUBORDINATE` match starts at the head of `l` (with its leading
`\s*(?:,\s*)?`), returning the post-keyword text when it does. -/
def subordMatchU (l : List Char) : Option (List Char) :=
  let l1 := l.dropWhile pySpace
  (match l1 with
   | ',' :: r2 => subordCoreRem (r2.dropWhile pySpace) subordKw
   | _ => none) <|> subordCoreRem l1 subordKw

/-- Python `SUBORDINATE.sub("", s)`: the match extends to the end of the
string (or to just before a final newline, which then survives). -/
def subordSubAux : List Char → List Char
  | [] => []
  | c :: rest =>
    match subordMatchU (c :: rest) with
    | some u => if u.getLast? == some '\n' then ['\n'] else []
    | none => c :: subordSubAux rest

/-- Terminal-punctuation step of plain-language `_simplify_sentence`: append
a period unless the result is empty or already ends in `.!?:`. -/
def plFinishDot (r4 : List Char) : String :=
  if r4.isEmpty then ⟨r4⟩
  else
    match r4.getLast? with
    | some c =>
      if c == '.' || c == '!' || c == '?' || c == ':' then ⟨r4⟩
      else ⟨r4 ++ ['.']⟩
    | none => ⟨r4⟩

/-- Plain-language `_simplify_sentence`. -/
def pl_simplify_sentence (text : String) : String :=
  plFinishDot (pyStripL (collapseWS (pyStripL (subordSubAux (pyStripL
    (conjSplitAux (pl_remove_parentheticals text).data))))))

/-- Plain-language `_normalize_step`. -/
def pl_normalize_step (step : String) : String :=
  ⟨pyStripL (collapseWS (pl_remove_parentheticals
    (pl_simplify_sentence step)).data)⟩

/-- The `if simplified and len(simplified) > 2` keep-test of the
`apply_plain_language` loops. -/
def plKeep (n : String) : Bool :=
  !n.data.isEmpty && n.data.length > 2

/-- Per-step body of the `apply_plain_language` plan loop: keep the
normalized step when it is non-empty and longer than 2 characters. -/
def plStepMapper (step : String) : Option String :=
  if plKeep (pl_normalize_step step) then some (pl_normalize_step step)
  else none

/-- Per-note body of the `apply_plain_language` notes loop. -/
def plNoteMapper (note : String) : Option String :=
  if plKeep (pl_simplify_sentence note) then some (pl_simplify_sentence note)
  else none

/-- Plain-language `apply_plain_language`: commands are passed through
(`[:1]`) with no confidence check. -/
def apply_plain_language (result : AssistResult) : AssistResult :=
  let safest := pl_simplify_sentence result.safest_next_step
  let plan := (result.plan.take 4).filterMap plStepMapper
  let notes := (result.notes.take 2).filterMap plNoteMapper
  let commands := result.next_safe_commands.take 1
  { anchored_id := result.anchored_id
    confidence := result.confidence
    safest_next_step := safest
    plan := plan
    next_safe_commands := commands
    notes := notes }

/-!
Audit-metadata helpers and orchestration (`src/a11y_assist/methods.py`,
`src/a11y_assist/cli.py`).
-/

/-- Method id `profile.lowvision.apply` (`methods.py`). -/
def METHOD_PROFILE_LOWVISION : String := "profile.lowvision.apply"

/-- Method id `profile.cognitive_load.apply` (`methods.py`). -/
def METHOD_PROFILE_COGNITIVE_LOAD : String := "profile.cognitive_load.apply"

/-- Method id `profile.screen_reader.apply` (`methods.py`). -/
def METHOD_PROFILE_SCREEN_READER : String := "profile.screen_reader.apply"

/-- Method id `profile.dyslexia.apply` (`methods.py`). -/
def METHOD_PROFILE_DYSLEXIA : String := "profile.dyslexia.apply"

/-- Method id `profile.plain_language.apply` (`methods.py`). -/
def METHOD_PROFILE_PLAIN_LANGUAGE : String := "profile.plain_language.apply"

/-- Methods.py `with_methods`: append the given method ids, skipping ones
already present. -/
def with_methods (result : AssistResult) (methods : List String) : AssistResult :=
  { result with
    methods_applied :=
      methods.foldl (fun cur m => if m ∈ cur then cur else cur ++ [m])
        result.methods_applied }

/-- Methods.py `with_method`. -/
def with_method (result : AssistResult) (method : String) : AssistResult :=
  with_methods result [method]

/-- Cli.py `apply_profile`: dispatch on the profile name; the default branch
is the lowvision identity path (no transform, just the method id). -/
def apply_profile (result : AssistResult) (profile : String) : AssistResult :=
  if profile = "cognitive-load" then
    with_method (apply_cognitive_load result) METHOD_PROFILE_COGNITIVE_LOAD
  else if profile = "screen-reader" then
    with_method (apply_screen_reader result) METHOD_PROFILE_SCREEN_READER
  else if profile = "dyslexia" then
    with_method (apply_dyslexia result) METHOD_PROFILE_DYSLEXIA
  else if profile = "plain-language" then
    with_method (apply_plain_language result) METHOD_PROFILE_PLAIN_LANGUAGE
  else
    with_method result METHOD_PROFILE_LOWVISION

/-- Terminating events of the `explain` command that end in `SystemExit`
(`cli.py`): a Guard violation handled by `_handle_guard_violation`, or a
`CliErrorValidationError` (schema-validation failure of the input JSON). -/
inductive ExplainEvent where
  | guardViolation
  | validationFailure
deriving DecidableEq

/-- Exit status the `explain` command terminates with on each event:
`_handle_guard_violation` ends with `raise SystemExit(2)` (cli.py line 184)
and the `CliErrorValidationError` handler ends with `raise SystemExit(2)`
(cli.py line 266). -/
def explainExitCode : ExplainEvent → Nat
  | .guardViolation => 2
  | .validationFailure => 2

/-!
Guard (`src/a11y_assist/guard.py`).  Python's `set` values are embedded as
lists; only membership is ever observed by the checks (the sole order-
dependent spot is the `", ".join` inside a detail string, where we use list
order for the nondeterministic frozenset iteration order).
-/

/-- Issue severity (`guard.py`, `Severity`). -/
inductive Severity where
  | ERROR
  | WARN
deriving DecidableEq

/-- A single guard violation (`guard.py`, `GuardIssue`). -/
structure GuardIssue where
  severity : Severity
  code : String
  message : String
  details : List (String × String) := []
deriving DecidableEq

/-- Context for guard validation (`guard.py`, `GuardContext`). -/
structure GuardContext where
  profile : String
  confidence : Confidence
  input_kind : String
  allowed_safe_commands : List String
  forbid_parentheticals : Bool := false
  forbid_visual_refs : Bool := false
  max_steps : Option Nat := none
  allow_commands_on_low : Bool := false

/-- The `guard.py` `STOPWORDS` set. -/
def STOPWORDS : List String :=
  ["a", "an", "the", "is", "are", "was", "were", "be", "been", "being",
   "have", "has", "had", "do", "does", "did", "will", "would", "could",
   "should", "may", "might", "must", "shall", "can", "to", "of", "in",
   "for", "on", "with", "at", "by", "from", "as", "into", "through",
   "during", "before", "after", "above", "below", "between", "under",
   "again", "further", "then", "once", "here", "there", "when", "where",
   "why", "how", "all", "each", "few", "more", "most", "other", "some",
   "such", "no", "nor", "not", "only", "own", "same", "so", "than",
   "too", "very", "just", "also", "now", "and", "but", "or", "if", "it",
   "its", "this", "that", "these", "those", "what", "which", "who",
   "whom", "your", "you", "we", "they", "them", "their", "our", "my"]

/-- The `guard.py` `GLUE_VOCABULARY` set. -/
def GLUE_VOCABULARY : List String :=
  ["step", "first", "next", "last", "run", "rerun", "re-run", "confirm",
   "check", "verify", "try", "retry", "follow", "start", "continue",
   "do", "ensure", "make", "see", "look", "update", "fix", "apply",
   "tool", "tools", "command", "commands", "output", "input", "file",
   "files", "error", "errors", "warning", "warnings", "dry", "dryrun",
   "dry-run", "validate", "validation", "config", "configuration",
   "line", "cli", "json", "order", "instructions", "steps"]

/-- Guard `_tokenize_content`: lowercase alphanumeric runs of length at least
3 that are not stopwords.  Python collects them into a set; the checks only
use membership, which the list preserves. -/
def tokenizeContent (text : String) : List String :=
  (alnumRuns (text.data.map Char.toLower)).filterMap (fun t =>
    if 3 ≤ t.length && !(STOPWORDS.contains (⟨t⟩ : String)) then
      some (⟨t⟩ : String)
    else none)

/-- Guard `_is_content_supported`. -/
def isContentSupported (line : String) (baseTokens : List String) : Bool :=
  let lineTokens := tokenizeContent line
  if lineTokens.isEmpty then true
  else if lineTokens.any (fun t => baseTokens.contains t) then true
  else
    let nonGlue := lineTokens.filter (fun t => !(GLUE_VOCABULARY.contains t))
    if nonGlue.isEmpty then true
    else nonGlue.all (fun t => baseTokens.contains t)

/-- Python `str(x)` on an `Optional[str]`. -/
def pyStrOpt : Option String → String
  | none => "None"
  | some s => s

/-- Guard `_check_id_invariant`. -/
def checkIdInvariant (base profiled : AssistResult) : List GuardIssue :=
  match base.anchored_id with
  | none =>
    match profiled.anchored_id with
    | some pid =>
      [{ severity := .ERROR
         code := "A11Y.ASSIST.GUARD.ID.INVENTED"
         message := "Profile invented an anchored ID that didn't exist in base"
         details := [("base_id", "None"), ("profiled_id", pid)] }]
    | none => []
  | some bid =>
    if profiled.anchored_id ≠ some bid then
      [{ severity := .ERROR
         code := "A11Y.ASSIST.GUARD.ID.CHANGED"
         message := "Profile changed the anchored ID"
         details := [("base_id", bid), ("profiled_id", pyStrOpt profiled.anchored_id)] }]
    else []

/-- Guard `CONFIDENCE_ORDER` (`.get` never misses: `Confidence` is closed). -/
def confidenceOrder : Confidence → Nat
  | .Low => 0
  | .Medium => 1
  | .High => 2

/-- Guard `_check_confidence_invariant`. -/
def checkConfidenceInvariant (base profiled : AssistResult) : List GuardIssue :=
  if confidenceOrder profiled.confidence > confidenceOrder base.confidence then
    [{ severity := .ERROR
       code := "A11Y.ASSIST.GUARD.CONFIDENCE.INCREASED"
       message := "Profile increased confidence level (not allowed)"
       details := [("base_confidence", base.confidence.toStr),
                   ("profiled_confidence", profiled.confidence.toStr)] }]
  else []

/-- Command normalization of `_check_commands_invariant`:
`cmd.lstrip("$ ").strip()` — drop every leading `$` or space, then strip
surrounding whitespace. -/
def normCmd (cmd : String) : String :=
  ⟨pyStripL (cmd.data.dropWhile (fun c => c == '$' || c == ' '))⟩

/-- Inner loop of `_check_commands_invariant`: a command is allowed when some
allowed command normalizes to the same string. -/
def cmdAllowed (allowed : List String) (cmd : String) : Bool :=
  allowed.any (fun a => normCmd cmd == normCmd a)

/-- Python `", ".join(ctx.allowed_safe_commands) or "(none)"`. -/
def joinedAllowed (allowed : List String) : String :=
  let j := String.intercalate ", " allowed
  if j.isEmpty then "(none)" else j

/-- Per-command `COMMANDS.INVENTED` issues of `_check_commands_invariant`. -/
def commandsInventedIssues (profiled : AssistResult) (ctx : GuardContext) :
    List GuardIssue :=
  profiled.next_safe_commands.filterMap (fun cmd =>
    if cmdAllowed ctx.allowed_safe_commands cmd then none
    else
      some { severity := .ERROR
             code := "A11Y.ASSIST.GUARD.COMMANDS.INVENTED"
             message := "Profile included a command not in the allowed set"
             details := [("command", cmd),
                         ("allowed_commands", joinedAllowed ctx.allowed_safe_commands)] })

/-- Low-confidence rule of `_check_commands_invariant`. -/
def commandsLowIssues (profiled : AssistResult) (ctx : GuardContext) :
    List GuardIssue :=
  if ctx.confidence = .Low ∧ ctx.allow_commands_on_low = false then
    if profiled.next_safe_commands.isEmpty then []
    else
      [{ severity := .ERROR
         code := "A11Y.ASSIST.GUARD.COMMANDS.DISALLOWED_LOW_CONF"
         message := "Profile included commands on Low confidence (not allowed)"
         details := [("commands", String.intercalate ", " profiled.next_safe_commands)] }]
  else []

/-- Guard `_check_commands_invariant` (its `base` parameter is unused in the
source as well). -/
def checkCommandsInvariant (_base profiled : AssistResult) (ctx : GuardContext) :
    List GuardIssue :=
  commandsInventedIssues profiled ctx ++ commandsLowIssues profiled ctx

/-- Guard `_check_step_count_invariant`. -/
def checkStepCountInvariant (profiled : AssistResult) (ctx : GuardContext) :
    List GuardIssue :=
  match ctx.max_steps with
  | none => []
  | some n =>
    if profiled.plan.length > n then
      [{ severity := .ERROR
         code := "A11Y.ASSIST.GUARD.PLAN.TOO_MANY_STEPS"
         message := "Profile exceeded max steps (" ++ toString n ++ ")"
         details := [("max_steps", toString n),
                     ("actual_steps", toString profiled.plan.length)] }]
    else []

/-- Python `text[:80]` used in issue details. -/
def take80 (s : String) : String :=
  ⟨s.data.take 80⟩

/-- Plan part of `_check_content_support_invariant`, with 1-based step
numbers in the message. -/
def planContentIssues (baseTokens : List String) (i : Nat) :
    List String → List GuardIssue
  | [] => []
  | step :: rest =>
    (if isContentSupported step baseTokens then []
     else
       [{ severity := .WARN
          code := "A11Y.ASSIST.GUARD.CONTENT.UNSUPPORTED"
          message := "Plan step " ++ toString (i + 1) ++
            " contains content not found in base text"
          details := [("step", take80 step)] }]) ++
    planContentIssues baseTokens (i + 1) rest

/-- Guard `_check_content_support_invariant`. -/
def checkContentSupportInvariant (base_text : String) (profiled : AssistResult) :
    List GuardIssue :=
  let baseTokens := tokenizeContent base_text
  (if isContentSupported profiled.safest_next_step baseTokens then []
   else
     [{ severity := .WARN
        code := "A11Y.ASSIST.GUARD.CONTENT.UNSUPPORTED"
        message := "Safest next step contains content not found in base text"
        details := [("text", take80 profiled.safest_next_step)] }]) ++
  planContentIssues baseTokens 0 profiled.plan

/-- Indexed field names (`plan[0]`, `notes[1]`, ...) of the profile-specific
constraint checks. -/
def indexedFields (name : String) (i : Nat) : List String → List (String × String)
  | [] => []
  | s :: rest => (name ++ "[" ++ toString i ++ "]", s) :: indexedFields name (i + 1) rest

/-- The `fields_to_check` list of the profile-specific constraint checks. -/
def fieldsToCheck (profiled : AssistResult) : List (String × String) :=
  ("safest_next_step", profiled.safest_next_step) ::
    (indexedFields "plan" 0 profiled.plan ++ indexedFields "notes" 0 profiled.notes)

/-- Guard `_check_parentheticals_constraint`: `PARENTHETICAL_PATTERN.search`
is a search for any of the four bracket characters. -/
def checkParentheticalsConstraint (profiled : AssistResult) : List GuardIssue :=
  (fieldsToCheck profiled).filterMap (fun f =>
    if f.2.data.any isBracketChar then
      some { severity := .ERROR
             code := "A11Y.ASSIST.GUARD.TEXT.PARENTHETICALS_FORBIDDEN"
             message := "Parentheticals found in " ++ f.1 ++ " (forbidden by profile)"
             details := [("field", f.1), ("text", take80 f.2)] }
    else none)

/-- Guard `_check_visual_refs_constraint`. -/
def checkVisualRefsConstraint (profiled : AssistResult) : List GuardIssue :=
  (fieldsToCheck profiled).filterMap (fun f =>
    if visualSearch f.2.data then
      some { severity := .ERROR
             code := "A11Y.ASSIST.GUARD.TEXT.VISUAL_REFS_FORBIDDEN"
             message := "Visual navigation reference found in " ++ f.1 ++
               " (forbidden by profile)"
             details := [("field", f.1), ("text", take80 f.2)] }
    else none)

/-- All issues collected by `validate_profile_transform`, in the order the
checks append them. -/
def collectIssues (base_text : String) (base_result profiled_result : AssistResult)
    (ctx : GuardContext) : List GuardIssue :=
  checkIdInvariant base_result profiled_result ++
  checkConfidenceInvariant base_result profiled_result ++
  checkCommandsInvariant base_result profiled_result ctx ++
  checkStepCountInvariant profiled_result ctx ++
  checkContentSupportInvariant base_text profiled_result ++
  (if ctx.forbid_parentheticals then checkParentheticalsConstraint profiled_result
   else []) ++
  (if ctx.forbid_visual_refs then checkVisualRefsConstraint profiled_result
   else [])

/-- Guard `validate_profile_transform`: raising `GuardViolation(errors)` is
embedded as `.error errors`; returning normally as `.ok ()`. -/
def validate_profile_transform (base_text : String)
    (base_result profiled_result : AssistResult) (ctx : GuardContext) :
    Except (List GuardIssue) Unit :=
  let issues := collectIssues base_text base_result profiled_result ctx
  let errors := issues.filter (fun i => i.severity == Severity.ERROR)
  if errors.isEmpty then .ok () else .error errors

/-- The error codes carried by a validation outcome (empty on normal
return). -/
def errorCodes (r : Except (List GuardIssue) Unit) : List String :=
  match r with
  | .ok _ => []
  | .error es => es.map (fun i => i.code)

/-- Guard `get_guard_context`. -/
def get_guard_context (profile : String) (confidence : Confidence)
    (input_kind : String) (allowed_commands : List String) : GuardContext :=
  let cfg :=
    if profile = "lowvision" then (false, false, some 5, false)
    else if profile = "cognitive-load" then (false, false, some 3, false)
    else if profile = "screen-reader" then
      (true, true, some (if confidence = .Low then 3 else 5), false)
    else if profile = "dyslexia" then (true, true, some 5, false)
    else if profile = "plain-language" then (true, false, some 4, false)
    else (false, false, (none : Option Nat), false)
  { profile := profile
    confidence := confidence
    input_kind := input_kind
    allowed_safe_commands := allowed_commands
    forbid_parentheticals := cfg.1
    forbid_visual_refs := cfg.2.1
    max_steps := cfg.2.2.1
    allow_commands_on_low := cfg.2.2.2 }

/-- Bracket-freeness of a character list (decidable form). -/
def noBrkL (l : List Char) : Bool :=
  l.all (fun c => !isBracketChar c)

/-- Bracket-freeness of a string: none of `(`, `)`, `[`, `]` occurs. -/
def noBrkS (s : String) : Bool :=
  noBrkL s.data

/-- Bracket-freeness as a predicate, for the preservation lemmas. -/
def CleanL (l : List Char) : Prop :=
  ∀ c ∈ l, isBracketChar c = false

/-!
Helper lemmas.
-/

/-- Projection of an explicitly constructed string. -/
theorem data_mk (l : List Char) : (⟨l⟩ : String).data = l := rfl

/-- The Bool and Prop forms of bracket-freeness agree. -/
theorem noBrkL_iff {l : List Char} : noBrkL l = true ↔ CleanL l := by
  simp [noBrkL, CleanL, List.all_eq_true]

/-- Bracket-freeness restricts along any pointwise inclusion. -/
theorem CleanL.mono {l m : List Char} (h : CleanL l) (hsub : ∀ c ∈ m, c ∈ l) :
    CleanL m :=
  fun c hc => h c (hsub c hc)

/-- Bracket-freeness of an append. -/
theorem CleanL.append {a b : List Char} (ha : CleanL a) (hb : CleanL b) :
    CleanL (a ++ b) := by
  intro c hc
  rcases List.mem_append.mp hc with h | h
  · exact ha c h
  · exact hb c h

/-- The empty list is bracket-free. -/
theorem cleanL_nil : CleanL [] :=
  fun c hc => absurd hc (List.not_mem_nil c)

/-- Bracket-freeness of a cons. -/
theorem CleanL.cons {c : Char} {l : List Char} (hc : isBracketChar c = false)
    (h : CleanL l) : CleanL (c :: l) := by
  intro d hd
  rcases List.mem_cons.mp hd with h1 | h1
  · exact h1 ▸ hc
  · exact h d h1

/-- Bracket-freeness of the tail of a cons. -/
theorem CleanL.of_cons {c : Char} {l : List Char} (h : CleanL (c :: l)) :
    CleanL l :=
  fun d hd => h d (List.mem_cons_of_mem c hd)

/-- Head of a bracket-free cons. -/
theorem CleanL.head {c : Char} {l : List Char} (h : CleanL (c :: l)) :
    isBracketChar c = false :=
  h c (List.mem_cons_self c l)

/-- Membership in a `takeWhile` implies membership in the list. -/
theorem mem_of_takeWhile {p : Char → Bool} :
    ∀ {l : List Char} {c : Char}, c ∈ l.takeWhile p → c ∈ l := by
  intro l
  induction l with
  | nil => intro c hc; simp at hc
  | cons a rest ih =>
    intro c hc
    rw [List.takeWhile_cons] at hc
    split at hc
    · rcases List.mem_cons.mp hc with h | h
      · exact h ▸ List.mem_cons_self a rest
      · exact List.mem_cons_of_mem a (ih h)
    · simp at hc

/-- Bracket-freeness survives `dropWhile`. -/
theorem CleanL.dropWhile {p : Char → Bool} {l : List Char} (h : CleanL l) :
    CleanL (l.dropWhile p) :=
  h.mono fun _ hc => (List.dropWhile_suffix p).subset hc

/-- Bracket-freeness survives Python `strip`. -/
theorem CleanL.pyStrip {l : List Char} (h : CleanL l) : CleanL (pyStripL l) := by
  refine h.mono fun c hc => ?_
  unfold pyStripL at hc
  rw [List.mem_reverse] at hc
  have hc2 := (List.dropWhile_suffix pySpace).subset hc
  rw [List.mem_reverse] at hc2
  exact (List.dropWhile_suffix pySpace).subset hc2

/-- A successful case-sensitive literal drop leaves a suffix. -/
theorem dropLitExact_suffix :
    ∀ {w l rem : List Char}, dropLitExact w l = some rem → rem <:+ l := by
  intro w
  induction w with
  | nil =>
    intro l rem h
    simp [dropLitExact] at h
    exact h ▸ List.suffix_refl l
  | cons p ps ih =>
    intro l rem h
    cases l with
    | nil => simp [dropLitExact] at h
    | cons c cs =>
      unfold dropLitExact at h
      split at h
      · exact (ih h).trans (List.suffix_cons c cs)
      · exact absurd h (by simp)

/-- A successful case-insensitive literal drop leaves a suffix. -/
theorem dropLitCI_suffix :
    ∀ {w l rem : List Char}, dropLitCI w l = some rem → rem <:+ l := by
  intro w
  induction w with
  | nil =>
    intro l rem h
    simp [dropLitCI] at h
    exact h ▸ List.suffix_refl l
  | cons p ps ih =>
    intro l rem h
    cases l with
    | nil => simp [dropLitCI] at h
    | cons c cs =>
      unfold dropLitCI at h
      split at h
      · exact (ih h).trans (List.suffix_cons c cs)
      · exact absurd h (by simp)

/-- A successful keyword drop leaves a suffix. -/
theorem dropKwCI_suffix :
    ∀ {ks : List (List Char)} {l rem : List Char},
      dropKwCI l ks = some rem → rem <:+ l := by
  intro ks
  induction ks with
  | nil => intro l rem h; simp [dropKwCI] at h
  | cons k kt ih =>
    intro l rem h
    unfold dropKwCI at h
    cases hk : dropLitCI k l with
    | some r =>
      rw [hk] at h
      injection h with h
      exact h ▸ dropLitCI_suffix hk
    | none =>
      rw [hk] at h
      exact ih h

/-- A successful visual-keyword match leaves a suffix. -/
theorem visualCore_suffix {l rem : List Char} (h : visualCore l = some rem) :
    rem <:+ l := by
  unfold visualCore at h
  split at h
  · next r heq =>
    split at h
    · injection h with h
      exact h ▸ dropKwCI_suffix heq
    · exact absurd h (by simp)
  · exact absurd h (by simp)

/-- A successful visual-navigation match leaves a suffix. -/
theorem matchVisualAt_suffix {pw : Bool} {l rem : List Char}
    (h : matchVisualAt pw l = some rem) : rem <:+ l := by
  unfold matchVisualAt at h
  split at h
  · exact absurd h (by simp)
  · split at h
    · next rest heq =>
      have hrest := dropLitCI_suffix heq
      split at h
      · split at h
        · next rem2 hv =>
          injection h with h
          exact h ▸ ((visualCore_suffix hv).trans
            ((List.dropWhile_suffix pySpace).trans hrest))
        · exact visualCore_suffix h
      · exact visualCore_suffix h
    · exact visualCore_suffix h

/-- A successful closing-bracket tail match leaves a suffix. -/
theorem closeParenTail_suffix {m rem : List Char} (h : closeParenTail m = some rem) :
    rem <:+ m := by
  cases m with
  | nil => simp [closeParenTail] at h
  | cons d rest2 =>
    simp only [closeParenTail] at h
    split at h
    · injection h with h
      exact h ▸ ((List.dropWhile_suffix pySpace).trans (List.suffix_cons d rest2))
    · exact absurd h (by simp)

/-- A successful parenthetical-span match leaves a suffix. -/
theorem matchParenAt_suffix {l rem : List Char} (h : matchParenAt l = some rem) :
    rem <:+ l := by
  unfold matchParenAt at h
  split at h
  · exact absurd h (by simp)
  · next c rest heq =>
    split at h
    · have h1 := closeParenTail_suffix h
      have h2 : rest.dropWhile (fun d => !(isCloseBr d)) <:+ rest :=
        List.dropWhile_suffix _
      have h3 : rest <:+ c :: rest := List.suffix_cons c rest
      have h4 : (c :: rest : List Char) <:+ l := heq ▸ List.dropWhile_suffix pySpace
      exact h1.trans (h2.trans (h3.trans h4))
    · exact absurd h (by simp)

/-- A successful word-boundary literal match leaves a suffix. -/
theorem matchWordAt_suffix {pw : Bool} {w l rem : List Char}
    (h : matchWordAt pw w l = some rem) : rem <:+ l := by
  unfold matchWordAt at h
  split at h
  · exact absurd h (by simp)
  · split at h
    · next r heq =>
      split at h
      · injection h with h
        exact h ▸ dropLitExact_suffix heq
      · exact absurd h (by simp)
    · exact absurd h (by simp)

/-- The parenthetical-span substitution only introduces spaces. -/
theorem cleanL_subParenGo {l : List Char} (h : CleanL l) :
    ∀ fuel, CleanL (subParenGo fuel l) := by
  intro fuel
  induction fuel generalizing l with
  | zero => exact h
  | succ n ih =>
    cases l with
    | nil => exact cleanL_nil
    | cons c rest =>
      show CleanL (match matchParenAt (c :: rest) with
        | some rem => ' ' :: subParenGo n rem
        | none => c :: subParenGo n rest)
      split
      · next rem hm =>
        exact CleanL.cons (by decide) (ih (h.mono (matchParenAt_suffix hm).subset))
      · exact CleanL.cons h.head (ih h.of_cons)

/-- Whitespace collapsing only introduces spaces. -/
theorem cleanL_collapseWSGo {l : List Char} (h : CleanL l) :
    ∀ fuel, CleanL (collapseWSGo fuel l) := by
  intro fuel
  induction fuel generalizing l with
  | zero => exact h
  | succ n ih =>
    cases l with
    | nil => exact cleanL_nil
    | cons c rest =>
      show CleanL (if pySpace c then ' ' :: collapseWSGo n (rest.dropWhile pySpace)
        else c :: collapseWSGo n rest)
      split
      · exact CleanL.cons (by decide) (ih (h.of_cons.mono
          (fun _ hc => (List.dropWhile_suffix pySpace).subset hc)))
      · exact CleanL.cons h.head (ih h.of_cons)

/-- The visual-navigation deletion only removes characters. -/
theorem cleanL_visualSubGo {l : List Char} (h : CleanL l) :
    ∀ fuel pw, CleanL (visualSubGo fuel pw l) := by
  intro fuel
  induction fuel generalizing l with
  | zero => intro pw; exact h
  | succ n ih =>
    intro pw
    cases l with
    | nil => exact cleanL_nil
    | cons c rest =>
      show CleanL (match matchVisualAt pw (c :: rest) with
        | some rem => visualSubGo n true rem
        | none => c :: visualSubGo n (isWordChar c) rest)
      split
      · next rem hm =>
        exact ih (h.mono (matchVisualAt_suffix hm).subset) true
      · exact CleanL.cons h.head (ih h.of_cons (isWordChar c))

/-- Replacing every `\bw\b` occurrence with a bracket-free replacement keeps
the list bracket-free. -/
theorem cleanL_wordSubAllGo {repl l : List Char} (hrepl : CleanL repl)
    (h : CleanL l) : ∀ fuel pw w, CleanL (wordSubAllGo fuel pw w repl l) := by
  intro fuel
  induction fuel generalizing l with
  | zero => intro pw w; exact h
  | succ n ih =>
    intro pw w
    cases l with
    | nil => exact cleanL_nil
    | cons c rest =>
      show CleanL (match matchWordAt pw w (c :: rest) with
        | some rem => repl ++ wordSubAllGo n true w repl rem
        | none => c :: wordSubAllGo n (isWordChar c) w repl rest)
      split
      · next rem hm =>
        exact hrepl.append (ih (h.mono (matchWordAt_suffix hm).subset) true w)
      · exact CleanL.cons h.head (ih h.of_cons (isWordChar c) w)

/-- Replacing the first `\bw\b` occurrence with a bracket-free replacement
keeps the list bracket-free. -/
theorem cleanL_wordSubOnceAux {repl : List Char} (hrepl : CleanL repl) :
    ∀ {l : List Char} (pw : Bool) (w : List Char), CleanL l →
      CleanL (wordSubOnceAux pw w repl l) := by
  intro l
  induction l with
  | nil => intro pw w _; exact cleanL_nil
  | cons c rest ih =>
    intro pw w h
    show CleanL (match matchWordAt pw w (c :: rest) with
      | some rem => repl ++ rem
      | none => c :: wordSubOnceAux (isWordChar c) w repl rest)
    split
    · next rem hm =>
      exact hrepl.append (h.mono (matchWordAt_suffix hm).subset)
    · exact CleanL.cons h.head (ih (isWordChar c) w h.of_cons)

/-- A literal replacement with a bracket-free replacement keeps the list
bracket-free. -/
theorem cleanL_strReplaceGo {repl l : List Char} (hrepl : CleanL repl)
    (h : CleanL l) : ∀ fuel pat, CleanL (strReplaceGo fuel pat repl l) := by
  intro fuel
  induction fuel generalizing l with
  | zero => intro pat; exact h
  | succ n ih =>
    intro pat
    cases l with
    | nil => exact cleanL_nil
    | cons c rest =>
      show CleanL (match dropLitExact pat (c :: rest) with
        | some rem => repl ++ strReplaceGo n pat repl rem
        | none => c :: strReplaceGo n pat repl rest)
      split
      · next rem hm =>
        exact hrepl.append (ih (h.mono (dropLitExact_suffix hm).subset) pat)
      · exact CleanL.cons h.head (ih h.of_cons pat)

/-- The text kept before a split pattern is drawn from the input. -/
theorem takeUntilLit_subset {pat : List Char} :
    ∀ {l : List Char} {c : Char}, c ∈ takeUntilLit pat l → c ∈ l := by
  intro l
  induction l with
  | nil => intro c hc; simp [takeUntilLit] at hc
  | cons a rest ih =>
    intro c hc
    unfold takeUntilLit at hc
    split at hc
    · simp at hc
    · rcases List.mem_cons.mp hc with h1 | h1
      · exact h1 ▸ List.mem_cons_self a rest
      · exact List.mem_cons_of_mem a (ih h1)

/-- The boilerplate-prefix strip keeps only characters of the input. -/
theorem stripLeadBoiler_subset :
    ∀ {alts : List (List Char)} {l : List Char} {c : Char},
      c ∈ stripLeadBoiler alts l → c ∈ l := by
  intro alts
  induction alts with
  | nil => intro l c hc; simpa [stripLeadBoiler] using hc
  | cons p ps ih =>
    intro l c hc
    unfold stripLeadBoiler at hc
    split at hc
    · next rest heq =>
      exact (dropLitCI_suffix heq).subset ((List.dropWhile_suffix pySpace).subset hc)
    · exact ih hc

/-- The text kept before a conjunction match is drawn from the input. -/
theorem conjSplitAux_subset :
    ∀ {l : List Char} {c : Char}, c ∈ conjSplitAux l → c ∈ l := by
  intro l
  induction l with
  | nil => intro c hc; simp [conjSplitAux] at hc
  | cons a rest ih =>
    intro c hc
    unfold conjSplitAux at hc
    split at hc
    · simp at hc
    · rcases List.mem_cons.mp hc with h1 | h1
      · exact h1 ▸ List.mem_cons_self a rest
      · exact List.mem_cons_of_mem a (ih h1)

/-- The subordinate-clause deletion only removes characters (or keeps a final
newline). -/
theorem cleanL_subordSubAux : ∀ {l : List Char}, CleanL l →
    CleanL (subordSubAux l) := by
  intro l
  induction l with
  | nil => intro _; exact cleanL_nil
  | cons c rest ih =>
    intro h
    show CleanL (match subordMatchU (c :: rest) with
      | some u => if u.getLast? == some '\n' then ['\n'] else []
      | none => c :: subordSubAux rest)
    split
    · split
      · intro c hc
        rw [List.mem_singleton] at hc
        subst hc
        decide
      · exact cleanL_nil
    · exact CleanL.cons h.head (ih h.of_cons)

/-- Bracket-freeness from a concrete `noBrkL` computation. -/
theorem cleanL_of_decide {l : List Char} (h : noBrkL l = true) : CleanL l :=
  noBrkL_iff.mp h

/-- Wrapper form of `cleanL_subParenGo`. -/
theorem cleanL_subParen {l : List Char} (h : CleanL l) : CleanL (subParen l) :=
  cleanL_subParenGo h _

/-- Wrapper form of `cleanL_collapseWSGo`. -/
theorem cleanL_collapseWS {l : List Char} (h : CleanL l) : CleanL (collapseWS l) :=
  cleanL_collapseWSGo h _

/-- Wrapper form of `cleanL_visualSubGo`. -/
theorem cleanL_visualSub {l : List Char} (h : CleanL l) : CleanL (visualSub l) :=
  cleanL_visualSubGo h _ _

/-- Wrapper form of `cleanL_wordSubAllGo`. -/
theorem cleanL_wordSubAll {w repl l : List Char} (hrepl : CleanL repl)
    (h : CleanL l) : CleanL (wordSubAll w repl l) :=
  cleanL_wordSubAllGo hrepl h _ _ _

/-- Wrapper form of `cleanL_wordSubOnceAux`. -/
theorem cleanL_wordSubOnce {w repl l : List Char} (hrepl : CleanL repl)
    (h : CleanL l) : CleanL (wordSubOnce w repl l) :=
  cleanL_wordSubOnceAux hrepl _ _ h

/-- Wrapper form of `cleanL_strReplaceGo`. -/
theorem cleanL_strReplaceAll {pat repl l : List Char} (hrepl : CleanL repl)
    (h : CleanL l) : CleanL (strReplaceAll pat repl l) :=
  cleanL_strReplaceGo hrepl h _ _

/-- An abbreviation table with bracket-free replacements keeps a bracket-free
list bracket-free under replace-all folding. -/
theorem cleanL_foldl_wordSubAll :
    ∀ (ps : List (List Char × List Char)) {l : List Char},
      (∀ p ∈ ps, CleanL p.2) → CleanL l →
      CleanL (ps.foldl (fun acc p => wordSubAll p.1 p.2 acc) l) := by
  intro ps
  induction ps with
  | nil => intro l _ h; simpa using h
  | cons p pt ih =>
    intro l hp h
    rw [List.foldl_cons]
    exact ih (fun q hq => hp q (List.mem_cons_of_mem p hq))
      (cleanL_wordSubAll (hp p (List.mem_cons_self p pt)) h)

/-- An abbreviation table with bracket-free replacements keeps a bracket-free
list bracket-free under replace-once folding. -/
theorem cleanL_foldl_wordSubOnce :
    ∀ (ps : List (List Char × List Char)) {l : List Char},
      (∀ p ∈ ps, CleanL p.2) → CleanL l →
      CleanL (ps.foldl (fun acc p => wordSubOnce p.1 p.2 acc) l) := by
  intro ps
  induction ps with
  | nil => intro l _ h; simpa using h
  | cons p pt ih =>
    intro l hp h
    rw [List.foldl_cons]
    exact ih (fun q hq => hp q (List.mem_cons_of_mem p hq))
      (cleanL_wordSubOnce (hp p (List.mem_cons_self p pt)) h)

/-- Replacement texts of an abbreviation table, checked bracket-free by
computation. -/
theorem abbrevReplsClean {ps : List (List Char × List Char)}
    (hb : ps.all (fun p => noBrkL p.2) = true) : ∀ p ∈ ps, CleanL p.2 :=
  fun p hp => noBrkL_iff.mp (List.all_eq_true.mp hb p hp)

/-- Collapsing whitespace never empties a non-empty list (both branches of the
scanner produce a cons). -/
theorem collapseWS_ne_nil {l : List Char} (h : l ≠ []) : collapseWS l ≠ [] := by
  match l with
  | [] => exact absurd rfl h
  | c :: rest =>
    show (if pySpace c then ' ' :: collapseWSGo rest.length (rest.dropWhile pySpace)
          else c :: collapseWSGo rest.length rest) ≠ []
    split <;> simp

/-- A `String` differs from `""` exactly when its character list is nonempty. -/
theorem stringNeEmpty_iff {l : List Char} : (⟨l⟩ : String) ≠ "" ↔ l ≠ [] := by
  constructor
  · intro h hl
    exact h (by cases hl; rfl)
  · intro h hc
    exact h (congrArg String.data hc)

/-- Unfolding of the `apply_profile` dispatch at the name `"lowvision"`. -/
theorem apply_profile_lowvision (R : AssistResult) :
    apply_profile R "lowvision" = with_method R METHOD_PROFILE_LOWVISION := by
  unfold apply_profile
  rw [if_neg (by decide), if_neg (by decide), if_neg (by decide), if_neg (by decide)]

/-- Unfolding of the `apply_profile` dispatch at the name `"cognitive-load"`. -/
theorem apply_profile_cog (R : AssistResult) :
    apply_profile R "cognitive-load" =
      with_method (apply_cognitive_load R) METHOD_PROFILE_COGNITIVE_LOAD := by
  unfold apply_profile
  rw [if_pos rfl]

/-- Unfolding of the `apply_profile` dispatch at the name `"screen-reader"`. -/
theorem apply_profile_sr (R : AssistResult) :
    apply_profile R "screen-reader" =
      with_method (apply_screen_reader R) METHOD_PROFILE_SCREEN_READER := by
  unfold apply_profile
  rw [if_neg (by decide), if_pos rfl]

/-- Unfolding of the `apply_profile` dispatch at the name `"dyslexia"`. -/
theorem apply_profile_dys (R : AssistResult) :
    apply_profile R "dyslexia" =
      with_method (apply_dyslexia R) METHOD_PROFILE_DYSLEXIA := by
  unfold apply_profile
  rw [if_neg (by decide), if_neg (by decide), if_pos rfl]

/-- Unfolding of the `apply_profile` dispatch at the name `"plain-language"`. -/
theorem apply_profile_pl (R : AssistResult) :
    apply_profile R "plain-language" =
      with_method (apply_plain_language R) METHOD_PROFILE_PLAIN_LANGUAGE := by
  unfold apply_profile
  rw [if_neg (by decide), if_neg (by decide), if_neg (by decide), if_pos rfl]

/-- Projections of `with_method` other than `methods_applied` are untouched. -/
theorem with_method_fields (r : AssistResult) (m : String) :
    (with_method r m).anchored_id = r.anchored_id ∧
    (with_method r m).confidence = r.confidence ∧
    (with_method r m).evidence = r.evidence :=
  ⟨rfl, rfl, rfl⟩

/-- Field projections of the cognitive-load transform. -/
theorem apply_cog_id_conf (R : AssistResult) :
    (apply_cognitive_load R).anchored_id = R.anchored_id ∧
    (apply_cognitive_load R).confidence = R.confidence :=
  ⟨rfl, rfl⟩

/-- Field projections of the screen-reader transform. -/
theorem apply_sr_id_conf (R : AssistResult) :
    (apply_screen_reader R).anchored_id = R.anchored_id ∧
    (apply_screen_reader R).confidence = R.confidence :=
  ⟨rfl, rfl⟩

/-- Field projections of the dyslexia transform. -/
theorem apply_dys_id_conf (R : AssistResult) :
    (apply_dyslexia R).anchored_id = R.anchored_id ∧
    (apply_dyslexia R).confidence = R.confidence := by
  unfold apply_dyslexia
  exact ⟨rfl, rfl⟩

/-- Field projections of the plain-language transform. -/
theorem apply_pl_id_conf (R : AssistResult) :
    (apply_plain_language R).anchored_id = R.anchored_id ∧
    (apply_plain_language R).confidence = R.confidence := by
  unfold apply_plain_language
  exact ⟨rfl, rfl⟩

/-!
Claim theorems.
-/

/-- C1: for every profile in {lowvision, cognitive-load, screen-reader,
dyslexia, plain-language} and every `AssistResult` `R`, the transformed result
has `anchored_id` equal to `R.anchored_id` and `confidence` equal to
`R.confidence`; no transform changes either field. -/
theorem c1_transforms_preserve_id_and_confidence (R : AssistResult) :
    ((apply_profile R "lowvision").anchored_id = R.anchored_id ∧
      (apply_profile R "lowvision").confidence = R.confidence) ∧
    ((apply_profile R "cognitive-load").anchored_id = R.anchored_id ∧
      (apply_profile R "cognitive-load").confidence = R.confidence) ∧
    ((apply_profile R "screen-reader").anchored_id = R.anchored_id ∧
      (apply_profile R "screen-reader").confidence = R.confidence) ∧
    ((apply_profile R "dyslexia").anchored_id = R.anchored_id ∧
      (apply_profile R "dyslexia").confidence = R.confidence) ∧
    ((apply_profile R "plain-language").anchored_id = R.anchored_id ∧
      (apply_profile R "plain-language").confidence = R.confidence) := by
  rw [apply_profile_lowvision, apply_profile_cog, apply_profile_sr,
    apply_profile_dys, apply_profile_pl]
  refine ⟨⟨(with_method_fields R _).1, (with_method_fields R _).2.1⟩, ?_, ?_, ?_, ?_⟩
  · rw [(with_method_fields _ _).1, (with_method_fields _ _).2.1]
    exact apply_cog_id_conf R
  · rw [(with_method_fields _ _).1, (with_method_fields _ _).2.1]
    exact apply_sr_id_conf R
  · rw [(with_method_fields _ _).1, (with_method_fields _ _).2.1]
    exact apply_dys_id_conf R
  · rw [(with_method_fields _ _).1, (with_method_fields _ _).2.1]
    exact apply_pl_id_conf R

/-- C3 counterexample: on a Low-confidence result with a safe command, the
plain-language transform keeps the command, so its `next_safe_commands` is not
empty as the claim requires. -/
theorem c3_counterexample :
    (apply_plain_language
      { anchored_id := none
        confidence := .Low
        safest_next_step := "Review the output."
        plan := ["Step 1.", "Step 2."]
        next_safe_commands := ["cmd --dry-run"]
        notes := ["No ID found."] }).next_safe_commands = ["cmd --dry-run"] ∧
    (["cmd --dry-run"] : List String) ≠ [] := by
  exact ⟨rfl, by decide⟩

/-- C3 amended: only cognitive-load and screen-reader implement the
select-at-most-one-safe-command rule (no command on Low confidence, otherwise
the first command — verbatim for cognitive-load, with a leading `"$ "`/`"$"`
stripped for screen-reader, and dropped entirely when the resulting command
text is empty); dyslexia passes through the first three commands and
plain-language the first one, regardless of confidence. -/
theorem c3_amended_command_selection (R : AssistResult) :
    (apply_cognitive_load R).next_safe_commands =
      (if R.confidence = .Low then []
       else
         match R.next_safe_commands with
         | [] => []
         | c :: _ => if c.data.isEmpty then [] else [c]) ∧
    (apply_screen_reader R).next_safe_commands =
      (if R.confidence = .Low then []
       else
         match R.next_safe_commands with
         | [] => []
         | c :: _ =>
           let stripped : String :=
             match dropLitExact "$ ".data c.data with
             | some rest => ⟨rest⟩
             | none =>
               match dropLitExact "$".data c.data with
               | some rest => ⟨rest⟩
               | none => c
           if stripped.data.isEmpty then [] else [stripped]) ∧
    (apply_dyslexia R).next_safe_commands = R.next_safe_commands.take 3 ∧
    (apply_plain_language R).next_safe_commands = R.next_safe_commands.take 1 := by
  refine ⟨?_, ?_, rfl, rfl⟩
  · show (match cog_select_safe_command R.next_safe_commands R.confidence with
          | some c => if c.data.isEmpty then [] else [c]
          | none => []) = _
    unfold cog_select_safe_command
    by_cases h : R.confidence = .Low
    · simp [h]
    · simp only [h, if_neg, ite_false]
      cases R.next_safe_commands <;> simp
  · show (match sr_select_safe_command R.next_safe_commands R.confidence with
          | some c => if c.data.isEmpty then [] else [c]
          | none => []) = _
    unfold sr_select_safe_command
    by_cases h : R.confidence = .Low
    · simp [h]
    · simp only [h, if_neg, ite_false]
      cases R.next_safe_commands with
      | nil => simp
      | cons c rest =>
        simp only []
        cases dropLitExact "$ ".data c.data with
        | none => cases dropLitExact "$".data c.data <;> simp
        | some rest => simp

/-- Successful literal matching decomposes the input as pattern ++ remainder. -/
theorem dropLitExact_append :
    ∀ {w l rem : List Char}, dropLitExact w l = some rem → l = w ++ rem := by
  intro w
  induction w with
  | nil =>
    intro l rem h
    simp [dropLitExact] at h
    simp [h]
  | cons p ps ih =>
    intro l rem h
    cases l with
    | nil => simp [dropLitExact] at h
    | cons c cs =>
      rw [dropLitExact] at h
      by_cases hpc : (p == c) = true
      · rw [if_pos hpc] at h
        obtain rfl : p = c := by simpa using hpc
        simp [ih h]
      · rw [if_neg hpc] at h
        exact absurd h (by simp)

/-- A successful word match decomposes the input as word ++ remainder. -/
theorem matchWordAt_append {pw : Bool} {w l rem : List Char}
    (h : matchWordAt pw w l = some rem) : l = w ++ rem := by
  unfold matchWordAt at h
  split at h
  · exact absurd h (by simp)
  · cases hd : dropLitExact w l with
    | none => rw [hd] at h; simp at h
    | some r =>
      rw [hd] at h
      simp only [] at h
      split at h
      · exact (Option.some.inj h) ▸ dropLitExact_append hd
      · exact absurd h (by simp)

/-- The all-occurrences scanner maps the empty string to itself at any fuel. -/
theorem wordSubAllGo_nil (f : Nat) (pw : Bool) (w repl : List Char) :
    wordSubAllGo f pw w repl [] = [] := by
  cases f <;> rfl

/-- The all-occurrences scanner is independent of the fuel once the fuel
covers the input length (each step consumes at least one character of a
non-empty pattern). -/
theorem wordSubAllGo_fuelEq {w repl : List Char} (hw : w ≠ []) :
    ∀ (f g : Nat) (pw : Bool) (l : List Char), l.length ≤ f → l.length ≤ g →
      wordSubAllGo f pw w repl l = wordSubAllGo g pw w repl l := by
  intro f
  induction f with
  | zero =>
    intro g pw l hf hg
    obtain rfl : l = [] := List.eq_nil_of_length_eq_zero (Nat.le_zero.mp hf)
    rw [wordSubAllGo_nil, wordSubAllGo_nil]
  | succ f ih =>
    intro g pw l hf hg
    cases l with
    | nil => rw [wordSubAllGo_nil, wordSubAllGo_nil]
    | cons c rest =>
      cases g with
      | zero => simp at hg
      | succ g =>
        cases hm : matchWordAt pw w (c :: rest) with
        | some rem =>
          have e1 : wordSubAllGo (f + 1) pw w repl (c :: rest) =
              repl ++ wordSubAllGo f true w repl rem := by
            show (match matchWordAt pw w (c :: rest) with
                  | some rem => repl ++ wordSubAllGo f true w repl rem
                  | none => c :: wordSubAllGo f (isWordChar c) w repl rest) = _
            rw [hm]
          have e2 : wordSubAllGo (g + 1) pw w repl (c :: rest) =
              repl ++ wordSubAllGo g true w repl rem := by
            show (match matchWordAt pw w (c :: rest) with
                  | some rem => repl ++ wordSubAllGo g true w repl rem
                  | none => c :: wordSubAllGo g (isWordChar c) w repl rest) = _
            rw [hm]
          rw [e1, e2]
          have hlen : rest.length + 1 = w.length + rem.length := by
            have := congrArg List.length (matchWordAt_append hm)
            simpa using this
          have hwpos : 0 < w.length := List.length_pos.mpr hw
          have hf2 : rest.length + 1 ≤ f + 1 := by simpa using hf
          have hg2 : rest.length + 1 ≤ g + 1 := by simpa using hg
          exact congrArg (repl ++ ·) (ih g true rem (by omega) (by omega))
        | none =>
          have e1 : wordSubAllGo (f + 1) pw w repl (c :: rest) =
              c :: wordSubAllGo f (isWordChar c) w repl rest := by
            show (match matchWordAt pw w (c :: rest) with
                  | some rem => repl ++ wordSubAllGo f true w repl rem
                  | none => c :: wordSubAllGo f (isWordChar c) w repl rest) = _
            rw [hm]
          have e2 : wordSubAllGo (g + 1) pw w repl (c :: rest) =
              c :: wordSubAllGo g (isWordChar c) w repl rest := by
            show (match matchWordAt pw w (c :: rest) with
                  | some rem => repl ++ wordSubAllGo g true w repl rem
                  | none => c :: wordSubAllGo g (isWordChar c) w repl rest) = _
            rw [hm]
          rw [e1, e2]
          have hf2 : rest.length + 1 ≤ f + 1 := by simpa using hf
          have hg2 : rest.length + 1 ≤ g + 1 := by simpa using hg
          exact congrArg (c :: ·) (ih g (isWordChar c) rest (by omega) (by omega))

/-- A `count=1` substitution pass replaces at most one occurrence: on every
input it either returns the input unchanged or replaces a single occurrence
of the word and keeps the remainder verbatim, so any later occurrence
survives unexpanded. -/
theorem wordSubOnceAux_once (w repl : List Char) :
    ∀ (l : List Char) (pw : Bool),
      wordSubOnceAux pw w repl l = l ∨
      ∃ pre rest, l = pre ++ w ++ rest ∧
        wordSubOnceAux pw w repl l = pre ++ repl ++ rest := by
  intro l
  induction l with
  | nil => intro pw; left; rfl
  | cons c rest ih =>
    intro pw
    cases hm : matchWordAt pw w (c :: rest) with
    | some rem =>
      have e1 : wordSubOnceAux pw w repl (c :: rest) = repl ++ rem := by
        show (match matchWordAt pw w (c :: rest) with
              | some rem => repl ++ rem
              | none => c :: wordSubOnceAux (isWordChar c) w repl rest) = _
        rw [hm]
      right
      exact ⟨[], rem, by simpa using matchWordAt_append hm, by simp [e1]⟩
    | none =>
      have e1 : wordSubOnceAux pw w repl (c :: rest) =
          c :: wordSubOnceAux (isWordChar c) w repl rest := by
        show (match matchWordAt pw w (c :: rest) with
              | some rem => repl ++ rem
              | none => c :: wordSubOnceAux (isWordChar c) w repl rest) = _
        rw [hm]
      rw [e1]
      rcases ih (isWordChar c) with h | ⟨pre, rest2, heq, hres⟩
      · left
        rw [h]
      · right
        exact ⟨c :: pre, rest2, by simp [heq], by simp [hres]⟩

/-- An unbounded substitution pass keeps substituting: on every input it
either returns the input unchanged or replaces an occurrence of the word and
continues scanning in the remainder (so every later occurrence is processed
as well, in contrast with the `count=1` pass). -/
theorem wordSubAllGo_first {w repl : List Char} (hw : w ≠ []) :
    ∀ (f : Nat) (l : List Char) (pw : Bool), l.length ≤ f →
      wordSubAllGo f pw w repl l = l ∨
      ∃ pre rest, l = pre ++ w ++ rest ∧
        wordSubAllGo f pw w repl l =
          pre ++ repl ++ wordSubAllGo rest.length true w repl rest := by
  intro f
  induction f with
  | zero =>
    intro l pw hf
    obtain rfl : l = [] := List.eq_nil_of_length_eq_zero (Nat.le_zero.mp hf)
    left
    exact wordSubAllGo_nil 0 pw w repl
  | succ f ih =>
    intro l pw hf
    cases l with
    | nil =>
      left
      exact wordSubAllGo_nil (f + 1) pw w repl
    | cons c rest =>
      cases hm : matchWordAt pw w (c :: rest) with
      | some rem =>
        have e1 : wordSubAllGo (f + 1) pw w repl (c :: rest) =
            repl ++ wordSubAllGo f true w repl rem := by
          show (match matchWordAt pw w (c :: rest) with
                | some rem => repl ++ wordSubAllGo f true w repl rem
                | none => c :: wordSubAllGo f (isWordChar c) w repl rest) = _
          rw [hm]
        right
        refine ⟨[], rem, by simpa using matchWordAt_append hm, ?_⟩
        have hlen : rest.length + 1 = w.length + rem.length := by
          have := congrArg List.length (matchWordAt_append hm)
          simpa using this
        have hwpos : 0 < w.length := List.length_pos.mpr hw
        have hf2 : rest.length + 1 ≤ f + 1 := by simpa using hf
        rw [e1, wordSubAllGo_fuelEq hw f rem.length true rem (by omega) (le_refl _)]
        simp
      | none =>
        have e1 : wordSubAllGo (f + 1) pw w repl (c :: rest) =
            c :: wordSubAllGo f (isWordChar c) w repl rest := by
          show (match matchWordAt pw w (c :: rest) with
                | some rem => repl ++ wordSubAllGo f true w repl rem
                | none => c :: wordSubAllGo f (isWordChar c) w repl rest) = _
          rw [hm]
        rw [e1]
        have hf2 : rest.length + 1 ≤ f + 1 := by simpa using hf
        rcases ih rest (isWordChar c) (by omega) with h | ⟨pre, rest2, heq, hres⟩
        · left
          rw [h]
        · right
          exact ⟨c :: pre, rest2, by simp [heq], by simp [hres]⟩

/-- C5 counterexample: the screen-reader abbreviation expansion substitutes
every occurrence, so a string containing `ID` twice does not keep the second
occurrence unexpanded. -/
theorem c5_counterexample :
    sr_expand_abbreviations "Check the ID and the ID" ≠ "Check the I D and the ID" := by
  decide

/-- C5 amended: the dyslexia `count=1` pass substitutes each abbreviation at
most once per string — universally, a single pass over any string with any
word and replacement either leaves the string unchanged or replaces one
occurrence and keeps the remainder verbatim, so a second occurrence survives
unexpanded — while the screen-reader pass continues substituting in the
remainder after each replacement, expanding every occurrence; concretely a
string containing `ID` twice keeps the second `ID` under dyslexia and has
both expanded under screen-reader. -/
theorem c5_amended_expansion_counts (w repl l : List Char) (pw : Bool)
    (hw : w ≠ []) :
    (wordSubOnceAux pw w repl l = l ∨
      ∃ pre rest, l = pre ++ w ++ rest ∧
        wordSubOnceAux pw w repl l = pre ++ repl ++ rest) ∧
    (wordSubAll w repl l = l ∨
      ∃ pre rest, l = pre ++ w ++ rest ∧
        wordSubAll w repl l =
          pre ++ repl ++ wordSubAllGo rest.length true w repl rest) ∧
    dys_expand_abbreviations "Check the ID and the ID" =
      "Check the I D and the ID" ∧
    sr_expand_abbreviations "Check the ID and the ID" =
      "Check the I D and the I D" ∧
    dys_expand_abbreviations "Use the CLI tool with the CLI" =
      "Use the command line tool with the CLI" ∧
    sr_expand_abbreviations "Use the CLI tool with the CLI" =
      "Use the command line tool with the command line" :=
  ⟨wordSubOnceAux_once w repl l pw,
   wordSubAllGo_first hw l.length l false (le_refl _),
   by decide, by decide, by decide, by decide⟩

/-- C5 witness: the amended theorem applied at the non-empty word `ID`. -/
theorem c5_witness :
    ("ID".data ≠ ([] : List Char)) ∧
    dys_expand_abbreviations "Check the ID and the ID" =
      "Check the I D and the ID" :=
  ⟨by decide,
   (c5_amended_expansion_counts "ID".data "I D".data [] false (by decide)).2.2.1⟩

/-- C6 counterexample: the dyslexia remove-parentheticals turns the non-empty
step `"(x)"` into the empty string — it has no empty-revert. -/
theorem c6_counterexample :
    dys_remove_parentheticals "(x)" = "" ∧ ("(x)" : String) ≠ "" := by
  exact ⟨rfl, by decide⟩

/-- C6 amended: the cognitive-load and screen-reader remove-parentheticals
revert to the original string when stripping would leave it empty (they never
turn a non-empty step into an empty one), but the dyslexia and plain-language
versions return the stripped string unconditionally and can produce the empty
string from a non-empty one. -/
theorem c6_amended_revert_behavior (s : String) (h : s ≠ "") :
    cog_remove_parentheticals s ≠ "" ∧ sr_remove_parentheticals s ≠ "" ∧
    dys_remove_parentheticals "(x)" = "" ∧ pl_remove_parentheticals "(x)" = "" := by
  refine ⟨?_, ?_, rfl, rfl⟩
  · show (if (pyStripL (subParen s.data)).isEmpty = true then s
          else (⟨collapseWS (pyStripL (subParen s.data))⟩ : String)) ≠ ""
    split
    · exact h
    · next hne =>
      exact stringNeEmpty_iff.mpr (collapseWS_ne_nil (by simpa using hne))
  · show (if (pyStripL (subParen s.data)).isEmpty = true then s
          else (⟨collapseWS (pyStripL (subParen s.data))⟩ : String)) ≠ ""
    split
    · exact h
    · next hne =>
      exact stringNeEmpty_iff.mpr (collapseWS_ne_nil (by simpa using hne))

/-- C6 witness: the amended theorem applied at the non-empty input `"abc"`. -/
theorem c6_witness :
    cog_remove_parentheticals "abc" ≠ "" ∧ sr_remove_parentheticals "abc" ≠ "" ∧
    dys_remove_parentheticals "(x)" = "" ∧ pl_remove_parentheticals "(x)" = "" :=
  c6_amended_revert_behavior "abc" (by decide)

/-- C8 counterexample: a Guard violation and an ordinary `cli.error.v0.1`
schema-validation failure terminate the `explain` command with the same exit
status (both `SystemExit(2)`), so the statuses are not distinct. -/
theorem c8_counterexample :
    explainExitCode .guardViolation = explainExitCode .validationFailure := rfl

/-- C8 amended: a Guard violation terminates the CLI with the non-zero exit
status 2, but this is the same status the `explain` command uses for ordinary
user-input (schema-validation) failures, so the two are not distinguishable by
exit status alone. -/
theorem c8_amended_exit_codes :
    explainExitCode .guardViolation = 2 ∧ explainExitCode .guardViolation ≠ 0 ∧
    explainExitCode .validationFailure = 2 := by
  decide

/-- Unfolding of `validate_profile_transform` with its locals inlined. -/
theorem validate_eq (bt : String) (b p : AssistResult) (ctx : GuardContext) :
    validate_profile_transform bt b p ctx =
      (if ((collectIssues bt b p ctx).filter
            (fun i => i.severity == Severity.ERROR)).isEmpty
       then .ok ()
       else .error ((collectIssues bt b p ctx).filter
            (fun i => i.severity == Severity.ERROR))) :=
  rfl

/-- C2: the Guard collects the issues of every check and raises exactly when
at least one ERROR-severity issue exists, carrying the full ERROR sublist; in
particular a transform that both invents an anchored id and invents a command
yields a violation containing both codes. -/
theorem c2_guard_collects_all_errors (bt : String) (b p : AssistResult)
    (ctx : GuardContext) :
    ((validate_profile_transform bt b p ctx = .ok () ↔
       (collectIssues bt b p ctx).filter (fun i => i.severity == Severity.ERROR) = []) ∧
     (validate_profile_transform bt b p ctx = .ok () ∨
       validate_profile_transform bt b p ctx =
         .error ((collectIssues bt b p ctx).filter
           (fun i => i.severity == Severity.ERROR)))) ∧
    errorCodes (validate_profile_transform ""
      { anchored_id := none
        confidence := .High
        safest_next_step := ""
        plan := []
        next_safe_commands := []
        notes := [] }
      { anchored_id := some "FAKE"
        confidence := .High
        safest_next_step := ""
        plan := []
        next_safe_commands := ["rm -rf /"]
        notes := [] }
      { profile := "lowvision"
        confidence := .High
        input_kind := "cli_error_json"
        allowed_safe_commands := [] }) =
      ["A11Y.ASSIST.GUARD.ID.INVENTED", "A11Y.ASSIST.GUARD.COMMANDS.INVENTED"] := by
  refine ⟨?_, by decide⟩
  rw [validate_eq]
  by_cases h : (collectIssues bt b p ctx).filter (fun i => i.severity == Severity.ERROR) = []
  · rw [if_pos (by simp [h])]
    exact ⟨⟨fun _ => h, fun _ => rfl⟩, Or.inl rfl⟩
  · rw [if_neg (by simpa using h)]
    exact ⟨⟨fun hc => absurd hc (by simp), fun hc => absurd hc h⟩, Or.inr rfl⟩

/-- Issues produced by the plan part of the content-support check are all
WARN-severity with the `CONTENT.UNSUPPORTED` code. -/
theorem planContentIssues_mem {toks : List String} {n : Nat} {plan : List String}
    {i : GuardIssue} (hi : i ∈ planContentIssues toks n plan) :
    i.severity = Severity.WARN ∧ i.code = "A11Y.ASSIST.GUARD.CONTENT.UNSUPPORTED" := by
  induction plan generalizing n with
  | nil => simp [planContentIssues] at hi
  | cons s rest ih =>
    unfold planContentIssues at hi
    rcases List.mem_append.mp hi with h1 | h2
    · split at h1
      · simp at h1
      · rw [List.mem_singleton] at h1
        subst h1
        exact ⟨rfl, rfl⟩
    · exact ih h2

/-- C7: the content-support check only ever produces WARN-severity issues
(with code `A11Y.ASSIST.GUARD.CONTENT.UNSUPPORTED`), and WARN-severity issues
never cause `validate_profile_transform` to raise: whenever every collected
issue is WARN, the Guard returns normally. -/
theorem c7_content_support_warn_only :
    (∀ (bt : String) (p : AssistResult), ∀ i ∈ checkContentSupportInvariant bt p,
        i.severity = Severity.WARN ∧
        i.code = "A11Y.ASSIST.GUARD.CONTENT.UNSUPPORTED") ∧
    (∀ (bt : String) (b p : AssistResult) (ctx : GuardContext),
        (∀ j ∈ collectIssues bt b p ctx, j.severity = Severity.WARN) →
        validate_profile_transform bt b p ctx = .ok ()) := by
  constructor
  · intro bt p i hi
    unfold checkContentSupportInvariant at hi
    rcases List.mem_append.mp hi with h1 | h2
    · split at h1
      · simp at h1
      · rw [List.mem_singleton] at h1
        subst h1
        exact ⟨rfl, rfl⟩
    · exact planContentIssues_mem h2
  · intro bt b p ctx hw
    rw [validate_eq]
    rw [if_pos]
    simp only [List.isEmpty_iff]
    rw [List.filter_eq_nil_iff]
    intro j hj
    rw [hw j hj]
    decide

/-- C7 witness: the first part applied to the concrete unsupported issue that
`checkContentSupportInvariant` produces for base text `""` and safest step
`"zzplorq qwrtpx"`, and the second part applied to a trivial all-empty
validation run. -/
theorem c7_witness :
    (({ severity := Severity.WARN
        code := "A11Y.ASSIST.GUARD.CONTENT.UNSUPPORTED"
        message := "Safest next step contains content not found in base text"
        details := [("text", "zzplorq qwrtpx")] } : GuardIssue).severity =
          Severity.WARN ∧
      ({ severity := Severity.WARN
         code := "A11Y.ASSIST.GUARD.CONTENT.UNSUPPORTED"
         message := "Safest next step contains content not found in base text"
         details := [("text", "zzplorq qwrtpx")] } : GuardIssue).code =
           "A11Y.ASSIST.GUARD.CONTENT.UNSUPPORTED") ∧
    validate_profile_transform ""
      { anchored_id := none
        confidence := .High
        safest_next_step := ""
        plan := []
        next_safe_commands := []
        notes := [] }
      { anchored_id := none
        confidence := .High
        safest_next_step := ""
        plan := []
        next_safe_commands := []
        notes := [] }
      { profile := "lowvision"
        confidence := .High
        input_kind := "cli_error_json"
        allowed_safe_commands := [] } = .ok () :=
  ⟨c7_content_support_warn_only.1 ""
      { anchored_id := none
        confidence := .High
        safest_next_step := "zzplorq qwrtpx"
        plan := []
        next_safe_commands := []
        notes := [] } _ (by decide),
   c7_content_support_warn_only.2 "" _ _ _ (by decide)⟩

/-- C9: the Guard's commands check accepts a transformed command exactly when,
after removing every leading `$` or space character and trimming surrounding
whitespace, it equals some allowed command normalized the same way; in
particular `"$$ foo"` and `"   foo"` both normalize to `"foo"` and match an
allowed `"foo"`. -/
theorem c9_command_normalization (ctx : GuardContext) (profiled : AssistResult) :
    (commandsInventedIssues profiled ctx = [] ↔
      ∀ cmd ∈ profiled.next_safe_commands,
        ∃ a ∈ ctx.allowed_safe_commands, normCmd cmd = normCmd a) ∧
    normCmd "$$ foo" = "foo" ∧ normCmd "   foo" = "foo" ∧
    normCmd "$ $ foo" = "foo" ∧ normCmd "\t foo " = "foo" ∧
    cmdAllowed ["foo"] "$$ foo" = true ∧ cmdAllowed ["echo hi"] "$$ foo" = false := by
  refine ⟨?_, by decide, by decide, by decide, by decide, by decide, by decide⟩
  unfold commandsInventedIssues
  rw [List.filterMap_eq_nil_iff]
  constructor
  · intro h cmd hc
    have hcmd := h cmd hc
    by_cases ha : cmdAllowed ctx.allowed_safe_commands cmd = true
    · obtain ⟨a, hmem, hbeq⟩ := List.any_eq_true.mp ha
      exact ⟨a, hmem, by simpa using hbeq⟩
    · rw [if_neg ha] at hcmd
      exact absurd hcmd (by simp)
  · intro h cmd hc
    obtain ⟨a, hmem, heq⟩ := h cmd hc
    have ha : cmdAllowed ctx.allowed_safe_commands cmd = true :=
      List.any_eq_true.mpr ⟨a, hmem, by simpa using heq⟩
    rw [if_pos ha]

/-- C10: the four rewriting transforms return results with empty
`methods_applied` and `evidence` (the base audit trail is discarded); after
orchestration only the single profile method id is present; only the lowvision
identity path preserves the base audit metadata (evidence verbatim, methods
extended with the lowvision id). -/
theorem c10_transforms_discard_audit_metadata (R : AssistResult) :
    (apply_cognitive_load R).methods_applied = [] ∧
    (apply_cognitive_load R).evidence = [] ∧
    (apply_screen_reader R).methods_applied = [] ∧
    (apply_screen_reader R).evidence = [] ∧
    (apply_dyslexia R).methods_applied = [] ∧
    (apply_dyslexia R).evidence = [] ∧
    (apply_plain_language R).methods_applied = [] ∧
    (apply_plain_language R).evidence = [] ∧
    (apply_profile R "cognitive-load").methods_applied = [METHOD_PROFILE_COGNITIVE_LOAD] ∧
    (apply_profile R "cognitive-load").evidence = [] ∧
    (apply_profile R "screen-reader").methods_applied = [METHOD_PROFILE_SCREEN_READER] ∧
    (apply_profile R "screen-reader").evidence = [] ∧
    (apply_profile R "dyslexia").methods_applied = [METHOD_PROFILE_DYSLEXIA] ∧
    (apply_profile R "dyslexia").evidence = [] ∧
    (apply_profile R "plain-language").methods_applied = [METHOD_PROFILE_PLAIN_LANGUAGE] ∧
    (apply_profile R "plain-language").evidence = [] ∧
    (apply_profile R "lowvision").evidence = R.evidence ∧
    (apply_profile R "lowvision").methods_applied =
      R.methods_applied ++
        (if METHOD_PROFILE_LOWVISION ∈ R.methods_applied then []
         else [METHOD_PROFILE_LOWVISION]) := by
  rw [apply_profile_lowvision, apply_profile_cog, apply_profile_sr,
    apply_profile_dys, apply_profile_pl]
  refine ⟨rfl, rfl, rfl, rfl, rfl, rfl, rfl, rfl, rfl, rfl, rfl, rfl, rfl, rfl,
    rfl, rfl, rfl, ?_⟩
  by_cases h : METHOD_PROFILE_LOWVISION ∈ R.methods_applied <;>
    simp [with_method, with_methods, h]

/-!
Bracket-freeness through the screen-reader pipeline.
-/

/-- Boilerplate stripping introduces no brackets. -/
theorem clean_sr_strip_boilerplate {s : String} (h : CleanL s.data) :
    CleanL (sr_strip_boilerplate s).data :=
  CleanL.pyStrip (h.mono fun _ hc => stripLeadBoiler_subset hc)

/-- Parenthetical removal (with revert) introduces no brackets. -/
theorem clean_sr_remove_parentheticals {s : String} (h : CleanL s.data) :
    CleanL (sr_remove_parentheticals s).data := by
  show CleanL ((if (pyStripL (subParen s.data)).isEmpty = true then s
      else (⟨collapseWS (pyStripL (subParen s.data))⟩ : String)).data)
  split
  · exact h
  · exact cleanL_collapseWS (cleanL_subParen h).pyStrip

/-- Visual-reference removal introduces no brackets. -/
theorem clean_sr_remove_visual_references {s : String} (h : CleanL s.data) :
    CleanL (sr_remove_visual_references s).data :=
  CleanL.pyStrip (cleanL_collapseWS (cleanL_visualSub h))

/-- Abbreviation expansion introduces no brackets (its replacement texts have
none). -/
theorem clean_sr_expand_abbreviations {s : String} (h : CleanL s.data) :
    CleanL (sr_expand_abbreviations s).data :=
  cleanL_foldl_wordSubAll srAbbrev (abbrevReplsClean (by decide)) h

/-- Symbol replacement introduces no brackets. -/
theorem clean_sr_replace_symbols {s : String} (h : CleanL s.data) :
    CleanL (sr_replace_symbols s).data :=
  CleanL.pyStrip (cleanL_collapseWS
    (cleanL_strReplaceAll (cleanL_of_decide (by decide))
      (cleanL_strReplaceAll (cleanL_of_decide (by decide))
        (cleanL_strReplaceAll (cleanL_of_decide (by decide)) h))))

/-- Sentence reduction introduces no brackets. -/
theorem clean_sr_one_sentence {s : String} (h : CleanL s.data) :
    CleanL (sr_one_sentence s).data := by
  have h1 : CleanL (if s.data.any (fun c => c == ';') then
      (⟨pyStripL (s.data.takeWhile (fun c => !(c == ';')))⟩ : String)
      else s).data := by
    split
    · exact CleanL.pyStrip (h.mono fun _ hc => mem_of_takeWhile hc)
    · exact h
  exact CleanL.pyStrip (h1.mono fun _ hc => takeUntilLit_subset hc)

/-- Period insertion introduces no brackets. -/
theorem clean_sr_ensure_period {s : String} (h : CleanL s.data) :
    CleanL (sr_ensure_period s).data := by
  show CleanL ((if (pyStripL s.data).isEmpty = true then (⟨pyStripL s.data⟩ : String)
      else if (pyStripL s.data).getLast? == some '.' then ⟨pyStripL s.data⟩
      else ⟨pyStripL s.data ++ ['.']⟩).data)
  split
  · exact h.pyStrip
  · split
    · exact h.pyStrip
    · exact h.pyStrip.append (cleanL_of_decide (by decide))

/-- Length capping introduces no brackets. -/
theorem clean_sr_cap_length {n : Nat} {s : String} (h : CleanL s.data) :
    CleanL (sr_cap_length n s).data := by
  show CleanL ((if s.data.length ≤ n then s
      else (⟨s.data.take (n - 1) ++ ['…']⟩ : String)).data)
  split
  · exact h
  · exact (h.mono fun _ hc => List.take_subset _ _ hc).append
      (cleanL_of_decide (by decide))

/-- The screen-reader step normalization introduces no brackets. -/
theorem clean_sr_normalize_step {step : String} (h : CleanL step.data) :
    CleanL (sr_normalize_step step).data := by
  show CleanL ((if (pyStripS step).data.isEmpty = true then pyStripS step
      else sr_cap_length 110 (sr_ensure_period (sr_one_sentence
        (sr_replace_symbols (sr_expand_abbreviations
          (sr_remove_visual_references (sr_remove_parentheticals
            (sr_strip_boilerplate (pyStripS step))))))))).data)
  split
  · exact h.pyStrip
  · exact clean_sr_cap_length (clean_sr_ensure_period (clean_sr_one_sentence
      (clean_sr_replace_symbols (clean_sr_expand_abbreviations
        (clean_sr_remove_visual_references (clean_sr_remove_parentheticals
          (clean_sr_strip_boilerplate h.pyStrip)))))))

/-- The screen-reader safest-step normalization introduces no brackets. -/
theorem clean_sr_normalize_safest_step {s : String} (h : CleanL s.data) :
    CleanL (sr_normalize_safest_step s).data := by
  show CleanL ((if s.data.isEmpty = true then ("Follow the steps in order." : String)
      else sr_cap_length 110 (sr_ensure_period (sr_one_sentence
        (sr_replace_symbols (sr_expand_abbreviations
          (sr_remove_visual_references (sr_remove_parentheticals s))))))).data)
  split
  · exact cleanL_of_decide (by decide)
  · exact clean_sr_cap_length (clean_sr_ensure_period (clean_sr_one_sentence
      (clean_sr_replace_symbols (clean_sr_expand_abbreviations
        (clean_sr_remove_visual_references (clean_sr_remove_parentheticals h))))))

/-- The screen-reader plan reduction introduces no brackets into any step. -/
theorem clean_sr_reduce_plan {plan : List String} {conf : Confidence}
    (h : ∀ s ∈ plan, CleanL s.data) :
    ∀ s ∈ sr_reduce_plan plan conf, CleanL s.data := by
  intro s hs
  have hs2 : s ∈ (if plan.isEmpty then ["Follow the tool's instructions."]
      else
        (if (((plan.filter (fun t => !(pyStripL t.data).isEmpty)).map
              sr_normalize_step).filter (fun t => !t.data.isEmpty)).isEmpty then
          ["Follow the tool's instructions."]
        else
          (((plan.filter (fun t => !(pyStripL t.data).isEmpty)).map
              sr_normalize_step).filter (fun t => !t.data.isEmpty)).take
            (if conf = .Low then 3 else 5))) := hs
  split at hs2
  · rw [List.mem_singleton] at hs2
    subst hs2
    exact cleanL_of_decide (by decide)
  · split at hs2
    · rw [List.mem_singleton] at hs2
      subst hs2
      exact cleanL_of_decide (by decide)
    · have h1 := List.mem_of_mem_filter (List.take_subset _ _ hs2)
      obtain ⟨y, hy, rfl⟩ := List.mem_map.mp h1
      exact clean_sr_normalize_step (h y (List.mem_of_mem_filter hy))

/-!
Bracket-freeness through the dyslexia pipeline.
-/

/-- Dyslexia parenthetical removal introduces no brackets. -/
theorem clean_dys_remove_parentheticals {s : String} (h : CleanL s.data) :
    CleanL (dys_remove_parentheticals s).data :=
  CleanL.pyStrip (cleanL_subParen h)

/-- Dyslexia visual-reference removal introduces no brackets. -/
theorem clean_dys_remove_visual_refs {s : String} (h : CleanL s.data) :
    CleanL (dys_remove_visual_refs s).data :=
  CleanL.pyStrip (cleanL_visualSub h)

/-- Dyslexia symbolic-emphasis removal introduces no brackets. -/
theorem clean_dys_remove_symbolic_emphasis {s : String} (h : CleanL s.data) :
    CleanL (dys_remove_symbolic_emphasis s).data :=
  CleanL.pyStrip (h.mono fun _ hc => List.mem_of_mem_filter hc)

/-- Dyslexia abbreviation expansion introduces no brackets. -/
theorem clean_dys_expand_abbreviations {s : String} (h : CleanL s.data) :
    CleanL (dys_expand_abbreviations s).data :=
  cleanL_foldl_wordSubOnce dysAbbrev (abbrevReplsClean (by decide)) h

/-- The dyslexia truncation step introduces no brackets. -/
theorem cleanL_dysTruncate {r : List Char} (h : CleanL r) :
    CleanL (dysTruncate r).data := by
  show CleanL ((if r.length > 110 then (⟨r.take 107 ++ "...".data⟩ : String)
      else (⟨r⟩ : String)).data)
  split
  · exact (h.mono fun _ hc => List.take_subset _ _ hc).append
      (cleanL_of_decide (by decide))
  · exact h

/-- The dyslexia step normalization introduces no brackets. -/
theorem clean_dys_normalize_step {step : String} (h : CleanL step.data) :
    CleanL (dys_normalize_step step).data :=
  cleanL_dysTruncate (CleanL.pyStrip (cleanL_collapseWS
    (clean_dys_expand_abbreviations (clean_dys_remove_symbolic_emphasis
      (clean_dys_remove_visual_refs (clean_dys_remove_parentheticals h))))))

/-- Character-list form of the dyslexia safest-step normalization. -/
theorem dys_normalize_safest_step_data (s : String) :
    (dys_normalize_safest_step s).data =
      pyStripL (collapseWS (dys_expand_abbreviations
        (dys_remove_symbolic_emphasis (dys_remove_visual_refs
          (dys_remove_parentheticals s)))).data) := by
  unfold dys_normalize_safest_step
  rw [data_mk]

/-- The dyslexia safest-step normalization introduces no brackets. -/
theorem clean_dys_normalize_safest_step {s : String} (h : CleanL s.data) :
    CleanL (dys_normalize_safest_step s).data := by
  rw [dys_normalize_safest_step_data]
  exact CleanL.pyStrip (cleanL_collapseWS (clean_dys_expand_abbreviations
    (clean_dys_remove_symbolic_emphasis (clean_dys_remove_visual_refs
      (clean_dys_remove_parentheticals h)))))

/-- A kept dyslexia plan step is the normalization of its source step. -/
theorem dysStepMapper_some {y s : String} (h : dysStepMapper y = some s) :
    s = dys_normalize_step y := by
  unfold dysStepMapper at h
  by_cases hb : (dys_normalize_step y).data.isEmpty = true
  · rw [if_pos hb] at h
    exact Option.noConfusion h
  · rw [if_neg hb] at h
    exact (Option.some.inj h).symm

/-- Field unfolding of `apply_dyslexia` for the two text fields. -/
theorem apply_dys_fields (R : AssistResult) :
    (apply_dyslexia R).safest_next_step =
      dys_normalize_safest_step R.safest_next_step ∧
    (apply_dyslexia R).plan = (R.plan.take 5).filterMap dysStepMapper := by
  unfold apply_dyslexia
  exact ⟨rfl, rfl⟩

/-!
Bracket-freeness through the plain-language pipeline.
-/

/-- Plain-language parenthetical removal introduces no brackets. -/
theorem clean_pl_remove_parentheticals {s : String} (h : CleanL s.data) :
    CleanL (pl_remove_parentheticals s).data :=
  CleanL.pyStrip (cleanL_subParen h)

/-- The terminal-punctuation step introduces no brackets. -/
theorem cleanL_plFinishDot {r : List Char} (h : CleanL r) :
    CleanL (plFinishDot r).data := by
  show CleanL ((if r.isEmpty = true then (⟨r⟩ : String)
      else
        match r.getLast? with
        | some c =>
          if c == '.' || c == '!' || c == '?' || c == ':' then (⟨r⟩ : String)
          else ⟨r ++ ['.']⟩
        | none => (⟨r⟩ : String)).data)
  split
  · exact h
  · split
    · split
      · exact h
      · exact h.append (cleanL_of_decide (by decide))
    · exact h

/-- The plain-language sentence simplification introduces no brackets. -/
theorem clean_pl_simplify_sentence {text : String} (h : CleanL text.data) :
    CleanL (pl_simplify_sentence text).data :=
  cleanL_plFinishDot (CleanL.pyStrip (cleanL_collapseWS (CleanL.pyStrip
    (cleanL_subordSubAux (CleanL.pyStrip
      ((clean_pl_remove_parentheticals h).mono
        fun _ hc => conjSplitAux_subset hc))))))

/-- Character-list form of the plain-language step normalization. -/
theorem pl_normalize_step_data (step : String) :
    (pl_normalize_step step).data =
      pyStripL (collapseWS (pl_remove_parentheticals
        (pl_simplify_sentence step)).data) := by
  unfold pl_normalize_step
  rw [data_mk]

/-- The plain-language step normalization introduces no brackets. -/
theorem clean_pl_normalize_step {step : String} (h : CleanL step.data) :
    CleanL (pl_normalize_step step).data := by
  rw [pl_normalize_step_data]
  exact CleanL.pyStrip (cleanL_collapseWS (clean_pl_remove_parentheticals
    (clean_pl_simplify_sentence h)))

/-- A kept plain-language plan step is the normalization of its source step. -/
theorem plStepMapper_some {y s : String} (h : plStepMapper y = some s) :
    s = pl_normalize_step y := by
  unfold plStepMapper at h
  by_cases hb : plKeep (pl_normalize_step y) = true
  · rw [if_pos hb] at h
    exact (Option.some.inj h).symm
  · rw [if_neg hb] at h
    exact Option.noConfusion h

/-- Field unfolding of `apply_plain_language` for the two text fields. -/
theorem apply_pl_fields (R : AssistResult) :
    (apply_plain_language R).safest_next_step =
      pl_simplify_sentence R.safest_next_step ∧
    (apply_plain_language R).plan = (R.plan.take 4).filterMap plStepMapper := by
  unfold apply_plain_language
  refine ⟨?_, ?_⟩ <;> dsimp only

/-- Field unfolding of `apply_screen_reader` for the two text fields. -/
theorem apply_sr_fields (R : AssistResult) :
    (apply_screen_reader R).safest_next_step =
      sr_normalize_safest_step R.safest_next_step ∧
    (apply_screen_reader R).plan = sr_reduce_plan R.plan R.confidence :=
  ⟨rfl, rfl⟩

/-!
Aggregate bracket-freeness of the three rewriting profiles, and the
no-parenthetical property (claim C4).
-/

/-- If the input carries no brackets in its text fields, neither does the
screen-reader output. -/
theorem clean_apply_sr {R : AssistResult}
    (hs : CleanL R.safest_next_step.data)
    (hp : ∀ s ∈ R.plan, CleanL s.data) :
    CleanL (apply_screen_reader R).safest_next_step.data ∧
    ∀ s ∈ (apply_screen_reader R).plan, CleanL s.data := by
  refine ⟨?_, ?_⟩
  · rw [(apply_sr_fields R).1]
    exact clean_sr_normalize_safest_step hs
  · rw [(apply_sr_fields R).2]
    exact clean_sr_reduce_plan hp

/-- If the input carries no brackets in its text fields, neither does the
dyslexia output. -/
theorem clean_apply_dys {R : AssistResult}
    (hs : CleanL R.safest_next_step.data)
    (hp : ∀ s ∈ R.plan, CleanL s.data) :
    CleanL (apply_dyslexia R).safest_next_step.data ∧
    ∀ s ∈ (apply_dyslexia R).plan, CleanL s.data := by
  refine ⟨?_, ?_⟩
  · rw [(apply_dys_fields R).1]
    exact clean_dys_normalize_safest_step hs
  · rw [(apply_dys_fields R).2]
    intro s hsm
    rcases List.mem_filterMap.mp hsm with ⟨y, hy, hmap⟩
    rw [dysStepMapper_some hmap]
    exact clean_dys_normalize_step (hp y (List.mem_of_mem_take hy))

/-- If the input carries no brackets in its text fields, neither does the
plain-language output. -/
theorem clean_apply_pl {R : AssistResult}
    (hs : CleanL R.safest_next_step.data)
    (hp : ∀ s ∈ R.plan, CleanL s.data) :
    CleanL (apply_plain_language R).safest_next_step.data ∧
    ∀ s ∈ (apply_plain_language R).plan, CleanL s.data := by
  refine ⟨?_, ?_⟩
  · rw [(apply_pl_fields R).1]
    exact clean_pl_simplify_sentence hs
  · rw [(apply_pl_fields R).2]
    intro s hsm
    rcases List.mem_filterMap.mp hsm with ⟨y, hy, hmap⟩
    rw [plStepMapper_some hmap]
    exact clean_pl_normalize_step (hp y (List.mem_of_mem_take hy))

/-- C4 counterexample: the claim that screen-reader, dyslexia and
plain-language outputs never contain `(`, `)`, `[`, `]` is false. The
screen-reader parenthetical removal reverts to the original text when
stripping would leave the empty string, so a safest step that is nothing but
a parenthetical (here `"(x)"`, which the pipeline turns into `"(x)."`) keeps
its brackets in the transformed result. -/
theorem c4_counterexample :
    noBrkS (apply_screen_reader
      { anchored_id := none
        confidence := .High
        safest_next_step := "(x)"
        plan := []
        next_safe_commands := []
        notes := [] }).safest_next_step = false := by
  decide

/-- C4 (amended): the three rewriting profiles never introduce bracket
characters. For every input whose `safest_next_step` and plan entries are
free of `(`, `)`, `[`, `]`, the screen-reader, dyslexia and plain-language
outputs are bracket-free in those fields as well; but a bracketed input can
survive (the screen-reader empty-revert keeps a fully parenthesized step,
and unbalanced brackets match no `(...)`/`[...]` span in any profile). -/
theorem c4_amended_no_new_brackets (R : AssistResult)
    (hs : noBrkS R.safest_next_step = true)
    (hp : ∀ s ∈ R.plan, noBrkS s = true) :
    (noBrkS (apply_screen_reader R).safest_next_step = true ∧
      ∀ s ∈ (apply_screen_reader R).plan, noBrkS s = true) ∧
    (noBrkS (apply_dyslexia R).safest_next_step = true ∧
      ∀ s ∈ (apply_dyslexia R).plan, noBrkS s = true) ∧
    (noBrkS (apply_plain_language R).safest_next_step = true ∧
      ∀ s ∈ (apply_plain_language R).plan, noBrkS s = true) := by
  have hs2 : CleanL R.safest_next_step.data := noBrkL_iff.mp hs
  have hp2 : ∀ s ∈ R.plan, CleanL s.data := fun s h => noBrkL_iff.mp (hp s h)
  have h1 := clean_apply_sr hs2 hp2
  have h2 := clean_apply_dys hs2 hp2
  have h3 := clean_apply_pl hs2 hp2
  exact ⟨⟨noBrkL_iff.mpr h1.1, fun s h => noBrkL_iff.mpr (h1.2 s h)⟩,
    ⟨noBrkL_iff.mpr h2.1, fun s h => noBrkL_iff.mpr (h2.2 s h)⟩,
    ⟨noBrkL_iff.mpr h3.1, fun s h => noBrkL_iff.mpr (h3.2 s h)⟩⟩

/-- Concrete instance of the amended C4 theorem on a bracket-free input. -/
theorem c4_witness :
    (∀ s ∈ ({ anchored_id := none
              confidence := .High
              safest_next_step := "Run the build"
              plan := ["Check the logs"]
              next_safe_commands := []
              notes := [] } : AssistResult).plan, noBrkS s = true) ∧
    noBrkS (apply_plain_language
      { anchored_id := none
        confidence := .High
        safest_next_step := "Run the build"
        plan := ["Check the logs"]
        next_safe_commands := []
        notes := [] }).safest_next_step = true :=
  ⟨by decide,
    (c4_amended_no_new_brackets
      { anchored_id := none
        confidence := .High
        safest_next_step := "Run the build"
        plan := ["Check the logs"]
        next_safe_commands := []
        notes := [] } (by decide) (by decide)).2.2.1⟩

end A11y
